import Mathlib

/-!
Verification of the gtfs_stats module (open-bus repository,
src/gtfs/gtfs_utils/gtfs_utils/gtfs_stats.py) against its specification.

The Python source is shallowly embedded below: pandas DataFrames become
lists of association-list rows with an explicit column schema, numpy
floats become rationals (with an explicit null for NaN/NaT), exceptions
become Except / explicit error outcomes, and the stateful orchestrator
becomes explicit state passing.  External collaborators (partridge feed
parsing, gtfstk helpers, the geometry provider, S3) are modelled as
parameters or small functions translated from their documented behaviour;
each such place is marked in a comment.
-/

set_option maxRecDepth 4000
set_option linter.unusedVariables false

-- ===================================================================
-- DEFINITIONS
-- ===================================================================

-- ## Generic list helpers (used to model pandas sorting / grouping)

/-- Insertion step of an insertion sort parameterised by a boolean order. -/
def insertBy {α : Type} (le : α → α → Bool) (x : α) : List α → List α
  | [] => [x]
  | y :: ys => if le x y then x :: y :: ys else y :: insertBy le x ys

/-- Insertion sort parameterised by a boolean order (models pandas sorting). -/
def sortBy {α : Type} (le : α → α → Bool) : List α → List α
  | [] => []
  | x :: xs => insertBy le x (sortBy le xs)

/-- Consecutive differences of a list, as numpy diff computes them. -/
def diffs : List Rat → List Rat
  | a :: b :: rest => (b - a) :: diffs (b :: rest)
  | _ => []

-- ## The retry executor (decorator `retry`, gtfs_stats.py lines 383-415)

/-- Result of one attempt of the wrapped operation.  `retryable` is an
exception matched by the decorator's `exception` parameter (the
retryable-failure predicate); `fatal` is any other exception, which the
`except exception` clause does not catch. -/
inductive AttemptResult (E A : Type) where
  | ok (a : A)
  | retryable (e : E)
  | fatal (e : E)
deriving DecidableEq, Repr

/-- Observable events of a run of the retry loop: an invocation of the
wrapped function, a call of the injected `report` callback (either the
per-failure message with its delay, or the terminal message carrying the
accumulated `problems` list), and a `time.sleep`. -/
inductive RetryEvent (E : Type) where
  | attempt
  | reportRetry (e : E) (delay : Nat)
  | sleep (delay : Nat)
  | reportFinal (problems : List E)
deriving DecidableEq, Repr

/-- Outcome of a call of the decorated function: normal return, a raised
exception, the implicit `None` return of a loop that ran off the end
(unreachable, since the iterated chain always ends with `None`), or a
`KeyError` raised by the wrapper itself. -/
inductive CallOutcome (E A : Type) where
  | ok (a : A)
  | raised (e : E)
  | retNone
  | keyErr (key : String)
deriving DecidableEq, Repr

/-- The `for delay in itertools.chain(delays, [None])` loop of `wrapped`.
`op k` is the k-th invocation of the wrapped function; `probs` is the
accumulated `problems` list. -/
def retryLoop {E A : Type} (op : Nat → AttemptResult E A) :
    List (Option Nat) → Nat → List E → List (RetryEvent E) × CallOutcome E A
  | [], _, _ => ([], .retNone)
  | d :: rest, k, probs =>
    match op k with
    | .ok a => ([.attempt], .ok a)
    | .fatal ex => ([.attempt], .raised ex)
    | .retryable ex =>
      match d with
      | none => ([.attempt, .reportFinal (probs ++ [ex])], .raised ex)
      | some delay =>
        let r := retryLoop op rest (k + 1) (probs ++ [ex])
        (.attempt :: .reportRetry ex delay :: .sleep delay :: r.1, r.2)

/-- A full run of the body of `wrapped` after `report` has been bound:
iterate over `itertools.chain(delays, [None])`. -/
def retryRun {E A : Type} (op : Nat → AttemptResult E A) (delays : List Nat) :
    List (RetryEvent E) × CallOutcome E A :=
  retryLoop op (delays.map some ++ [none]) 0 []

/-- A call of the decorated function.  `wrapped` first executes
`report = kwargs['report']`, so a missing `report` key raises `KeyError`
before the first attempt; `funcDefaults` models the default parameter
values declared on the wrapped function itself, which Python would bind
only when `func(*args, **kwargs)` is entered, so the wrapper never
consults them. -/
def retry_wrapped {V E A : Type} (funcDefaults : List (String × V))
    (op : Nat → AttemptResult E A) (delays : List Nat)
    (kwargs : List (String × V)) : List (RetryEvent E) × CallOutcome E A :=
  match kwargs.lookup "report" with
  | none => ([], .keyErr "report")
  | some _ => retryRun op delays

/-- Closed form of the event trace when every attempt fails retryably
(used only to state and prove facts about `retryRun`). -/
def allFailEvents {E : Type} (e : Nat → E) :
    List Nat → Nat → List E → List (RetryEvent E)
  | [], k, probs => [.attempt, .reportFinal (probs ++ [e k])]
  | d :: rest, k, probs =>
    .attempt :: .reportRetry (e k) d :: .sleep d ::
      allFailEvents e rest (k + 1) (probs ++ [e k])

/-- Test whether an event is an invocation of the wrapped function. -/
def isAttempt {E : Type} : RetryEvent E → Bool
  | .attempt => true
  | _ => false

/-- Extract the delay of a sleep event. -/
def sleepOf {E : Type} : RetryEvent E → Option Nat
  | .sleep d => some d
  | _ => none

/-- Extract the payload of a per-failure report. -/
def retryReportOf {E : Type} : RetryEvent E → Option (E × Nat)
  | .reportRetry e d => some (e, d)
  | _ => none

/-- Extract the payload of the terminal report. -/
def finalReportOf {E : Type} : RetryEvent E → Option (List E)
  | .reportFinal l => some l
  | _ => none

-- ## Calendar arithmetic (dates as day numbers)

/-- Day number of a proleptic-Gregorian calendar date (days since
0000-03-01, for years at least 1).  This realises the date arithmetic
that pandas timestamps perform in `get_forward_fill_dict`. -/
def daysFromCivil (y m d : Nat) : Nat :=
  let yy := if m ≤ 2 then y - 1 else y
  let era := yy / 400
  let yoe := yy % 400
  let mp := if m > 2 then m - 3 else m + 9
  let doy := (153 * mp + 2) / 5 + d - 1
  let doe := yoe * 365 + yoe / 4 - yoe / 100 + doy
  era * 146097 + doe

-- ## The forward-fill scheduler (`get_forward_fill_dict`, lines 504-523)
--
-- Dates are represented by their day numbers.  A file name
-- `YYYY-MM-DD.zip` is represented by the day number of its date; the key
-- strings produced by `strftime` are modelled as `Option Nat`: `some s`
-- stands for the string `strftime(s) ++ ".zip"` and `none` stands for
-- the string `"NaT.zip"` that `strftime` yields for a NaT entry (the
-- string map is injective, so nothing is conflated).

/-- The `pd.DatetimeIndex(start=min, end=max+future_days, freq='D')`
range of expected dates: every calendar day from the earliest snapshot
date to the latest one plus `future` days. -/
def expectedDays (snaps : List Nat) (future : Nat) : List Nat :=
  match snaps.min?, snaps.max? with
  | some lo, some hi => (List.range (hi + future + 1 - lo)).map (lo + ·)
  | _, _ => []  -- empty input: the pandas range constructor would fail

/-- The `date_df[existing_dates] = existing_dates` assignment followed by
`fillna(method='ffill', limit=59)`, walking the consecutive expected days
in order.  The state carries the last valid (snapshot) day together with
the number of NaN positions seen since it, exactly as the pandas limit
counts them; a NaN position is filled only while that count is below 59. -/
def ffillScan (snaps : List Nat) :
    List Nat → Option (Nat × Nat) → List (Nat × Option Nat)
  | [], _ => []
  | d :: rest, st =>
    if d ∈ snaps then (d, some d) :: ffillScan snaps rest (some (d, 0))
    else
      match st with
      | none => (d, none) :: ffillScan snaps rest none
      | some (s, g) =>
        if g < 59 then (d, some s) :: ffillScan snaps rest (some (s, g + 1))
        else (d, none) :: ffillScan snaps rest (some (s, g + 1))

/-- Append a value to the entry of a key in an insertion-ordered map,
creating the entry if absent: `defaultdict(list)`'s
`ffill[key].append(value)`. -/
def dictAppend {κ : Type} [DecidableEq κ] :
    List (κ × List Nat) → κ → Nat → List (κ × List Nat)
  | [], k, v => [(k, [v])]
  | (k0, vs) :: rest, k, v =>
    if k0 = k then (k0, vs ++ [v]) :: rest else (k0, vs) :: dictAppend rest k v

/-- The forward-fill plan: for each expected day, append it to the entry
of its filled file date (`none` = the `'NaT.zip'` key produced for an
unfilled day).  Mirrors the `for file_date, stats_date in zip(...)` loop. -/
def get_forward_fill_dict (snaps : List Nat) (future : Nat) :
    List (Option Nat × List Nat) :=
  (ffillScan snaps (expectedDays snaps future) none).foldl
    (fun m p => dictAppend m p.2 p.1) []

/-- The latest snapshot day at or before a given day. -/
def lastSnapLE (snaps : List Nat) (d : Nat) : Option Nat :=
  (snaps.filter (fun s => s ≤ d)).max?

-- ## The batch orchestrator (`handle_gtfs_date` / `handle_gtfs_file`)
--
-- The orchestration state records the persisted artifacts (keyed by the
-- date string that names the pickle files), the local snapshot folder,
-- and how many times each rollup builder has been invoked.  The stats
-- builders, the per-date feed windowing and the `date` tagging are
-- passed in as an environment, so the theorems below hold for every
-- choice of them.

/-- External capabilities used by one per-date work item. -/
structure OrchEnv (Feed TS RS : Type) where
  feedOf : String → String → Feed
  computeTS : Feed → TS
  computeRS : TS → RS
  tagTS : TS → String → TS
  tagRS : RS → String → RS

/-- Orchestrator-visible state: persisted artifacts, local GTFS folder,
and invocation counters for the two rollup builders. -/
structure OrchState (TS RS : Type) where
  tripArts : List (String × TS)
  routeArts : List (String × RS)
  localFiles : List String
  tripComputes : Nat
  routeComputes : Nat
deriving DecidableEq

/-- Overwrite-or-create an artifact under a key (a pickle write to a
fixed path). -/
def insertArt {α : Type} : List (String × α) → String → α → List (String × α)
  | [], k, v => [(k, v)]
  | (k0, v0) :: rest, k, v =>
    if k0 = k then (k, v) :: rest else (k0, v0) :: insertArt rest k v

/-- One (snapshot, date) work item, `handle_gtfs_date`: if the trip-stats
pickle for the date exists it is read back and reused; otherwise the file
is fetched when absent locally, the dated feed is built, trip stats are
computed, tagged with the date and persisted.  Either way route stats are
then computed from the (possibly reused) trip stats, tagged and
persisted.  Returns the `downloaded` flag and the new state. -/
def handle_gtfs_date {F TS RS : Type} (env : OrchEnv F TS RS)
    (date_str file : String) (s : OrchState TS RS) :
    Bool × OrchState TS RS :=
  match s.tripArts.lookup date_str with
  | some ts =>
    let rs := env.tagRS (env.computeRS ts) date_str
    (false,
     { s with
       routeArts := insertArt s.routeArts date_str rs,
       routeComputes := s.routeComputes + 1 })
  | none =>
    let downloaded := !(s.localFiles.contains file)
    let files := if s.localFiles.contains file then s.localFiles
                 else file :: s.localFiles
    let ts := env.tagTS (env.computeTS (env.feedOf file date_str)) date_str
    let rs := env.tagRS (env.computeRS ts) date_str
    (downloaded,
     { tripArts := insertArt s.tripArts date_str ts,
       routeArts := insertArt s.routeArts date_str rs,
       localFiles := files,
       tripComputes := s.tripComputes + 1,
       routeComputes := s.routeComputes + 1 })

/-- One snapshot file, `handle_gtfs_file`: iterate the scheduled dates,
overwriting the `downloaded` flag with each date's result exactly as the
Python loop does, then delete the local zip only when the deletion option
is set and the flag (from the last date) is true. -/
def handle_gtfs_file {F TS RS : Type} (env : OrchEnv F TS RS)
    (file : String) (stats_dates : List String)
    (delete_downloaded_gtfs_zips : Bool) (s : OrchState TS RS) :
    OrchState TS RS :=
  let r := stats_dates.foldl
    (fun acc d => handle_gtfs_date env d file acc.2) (false, s)
  if delete_downloaded_gtfs_zips && r.1 then
    { r.2 with localFiles := r.2.localFiles.erase file }
  else r.2

-- ## A small pandas model
--
-- A cell value is an int, a float (modelled as a rational), a string, or
-- null (NaN/NaT/None).  A row is an association list from column names
-- to values, a DataFrame is a column schema plus a list of rows.
-- Accessing a column that is not in the schema is a KeyError.

/-- Cell values of the modelled DataFrames. -/
inductive Val where
  | i (n : Int)
  | q (x : Rat)
  | s (str : String)
  | null
deriving DecidableEq, Repr

/-- A row: column name to value. -/
abbrev Row := List (String × Val)

/-- A DataFrame: column schema plus rows. -/
structure DF where
  cols : List String
  rows : List Row
deriving DecidableEq, Repr

/-- Read a cell (null when the row does not carry the column). -/
def cell (r : Row) (c : String) : Val := (r.lookup c).getD .null

/-- Write a cell, replacing an existing entry in place or appending. -/
def setCell (r : Row) (c : String) (v : Val) : Row :=
  if (r.lookup c).isSome then r.map (fun p => if p.1 = c then (c, v) else p)
  else r ++ [(c, v)]

/-- Numeric view of a value (ints and floats compare numerically in
pandas). -/
def toRatNum : Val → Option Rat
  | .i n => some (n : Rat)
  | .q x => some x
  | _ => none

/-- Ordering rank of a value constructor, for sorting mixed columns. -/
def valRank : Val → Nat
  | .null => 0
  | .i _ => 1
  | .q _ => 1
  | .s _ => 2

/-- Boolean order on cell values used by `sort_values`: numbers by value,
strings lexicographically, otherwise by constructor rank. -/
def valLe (x y : Val) : Bool :=
  match toRatNum x, toRatNum y with
  | some a, some b => decide (a ≤ b)
  | _, _ =>
    match x, y with
    | .s a, .s b => decide (a ≤ b)
    | _, _ => decide (valRank x ≤ valRank y)

/-- Lexicographic row order over a list of sort columns. -/
def rowLeBy : List String → Row → Row → Bool
  | [], _, _ => true
  | c :: rest, r1, r2 =>
    if cell r1 c = cell r2 c then rowLeBy rest r1 r2
    else valLe (cell r1 c) (cell r2 c)

/-- Columns shared by two frames (pandas merges on these by default). -/
def commonCols (a b : DF) : List String :=
  a.cols.filter (fun c => b.cols.contains c)

/-- Columns of the right frame that the merge adds to the left frame. -/
def newColsOf (a b : DF) : List String :=
  b.cols.filter (fun c => !(a.cols.contains c))

/-- Do two rows agree on all the join columns. -/
def rowsMatch (onCols : List String) (ra rb : Row) : Bool :=
  onCols.all (fun c => cell ra c == cell rb c)

/-- Combine a matched pair of rows, keeping the left row's values. -/
def rowJoin (bn : List String) (ra rb : Row) : Row :=
  ra ++ bn.map (fun c => (c, cell rb c))

/-- Inner merge on the common columns, pandas `a.merge(b)`. -/
def mergeInner (a b : DF) : DF :=
  let onCols := commonCols a b
  let bn := newColsOf a b
  { cols := a.cols ++ bn,
    rows := a.rows.flatMap (fun ra =>
      (b.rows.filter (fun rb => rowsMatch onCols ra rb)).map
        (fun rb => rowJoin bn ra rb)) }

/-- Left merge on given columns, pandas `a.merge(b, how='left', on=...)`:
an unmatched left row is kept with nulls in the added columns. -/
def mergeLeftOn (a b : DF) (onCols : List String) : DF :=
  let bn := newColsOf a b
  { cols := a.cols ++ bn,
    rows := a.rows.flatMap (fun ra =>
      let ms := b.rows.filter (fun rb => rowsMatch onCols ra rb)
      if ms.isEmpty then [ra ++ bn.map (fun c => (c, Val.null))]
      else ms.map (fun rb => rowJoin bn ra rb)) }

/-- Left merge on the common columns, pandas `a.merge(b, how='left')`. -/
def mergeLeftCommon (a b : DF) : DF := mergeLeftOn a b (commonCols a b)

/-- Column selection `df[[...]]` (presence assumed, as for feed tables). -/
def select (df : DF) (cs : List String) : DF :=
  ⟨cs, df.rows.map (fun r => cs.map (fun c => (c, cell r c)))⟩

/-- Row sort `df.sort_values([...])`. -/
def sortValues (df : DF) (cs : List String) : DF :=
  ⟨df.cols, sortBy (rowLeBy cs) df.rows⟩

/-- Grouping of rows by the values of a column, group keys sorted
ascending as pandas `groupby(sort=True)` does. -/
def groupsOf (df : DF) (c : String) : List (Val × List Row) :=
  (sortBy valLe ((df.rows.map (fun r => cell r c)).dedup)).map
    (fun k => (k, df.rows.filter (fun r => cell r c == k)))

/-- A frame indexed by a group key (the result of `groupby.apply` before
`reset_index`). -/
structure DFI where
  indexName : String
  cols : List String
  entries : List (Val × Row)
deriving DecidableEq, Repr

/-- pandas `df.groupby(c).apply(f)` where `f` returns a Series per group:
the output columns come from the aggregated Series; with zero groups
pandas returns an empty frame that keeps the INPUT columns, so the
aggregate columns do not exist on empty input. -/
def groupbyApply (c : String) (f : List Row → Row) (df : DF) : DFI :=
  match groupsOf df c with
  | [] => ⟨c, df.cols, []⟩
  | g :: gs => ⟨c, (f g.2).map Prod.fst, (g :: gs).map (fun p => (p.1, f p.2))⟩

/-- Column assignment on an indexed frame from a group-aligned value
list (used for `h['distance'] = g.shape_dist_traveled.max()`). -/
def dfiSetCol (di : DFI) (c : String) (vs : List Val) : DFI :=
  { di with
    cols := if di.cols.contains c then di.cols else di.cols ++ [c],
    entries := List.zipWith (fun p v => (p.1, setCell p.2 c v)) di.entries vs }

/-- pandas `reset_index()`: the group key becomes the first column.  With
no entries the frame stays as pandas leaves it on an empty
`groupby.apply` result: the input columns, no rows. -/
def resetIndex (di : DFI) : DF :=
  match di.entries with
  | [] => ⟨di.cols, []⟩
  | es => ⟨di.indexName :: di.cols, es.map (fun p => (di.indexName, p.1) :: p.2)⟩

/-- Column read `df[c]`: a KeyError when the schema lacks the column. -/
def getCol (df : DF) (c : String) : Except String (List Val) :=
  if df.cols.contains c then .ok (df.rows.map (fun r => cell r c))
  else .error ("KeyError: " ++ c)

/-- Column write `df[c] = values`. -/
def setCol (df : DF) (c : String) (vs : List Val) : DF :=
  ⟨if df.cols.contains c then df.cols else df.cols ++ [c],
   List.zipWith (fun r v => setCell r c v) df.rows vs⟩

/-- pandas `df[cs] = df[cs].applymap(fn)`: KeyError when a column is
missing, otherwise apply `fn` cellwise to the listed columns. -/
def applymapColsE (df : DF) (cs : List String) (fn : Val → Val) :
    Except String DF :=
  if cs.all (fun c => df.cols.contains c) then
    .ok ⟨df.cols,
         df.rows.map (fun r =>
           cs.foldl (fun r2 c => setCell r2 c (fn (cell r2 c))) r)⟩
  else .error "KeyError: column selection"

/-- Strict column selection `df[[...]]` used for the final output frame:
KeyError when a column is missing. -/
def selectE (df : DF) (cs : List String) : Except String DF :=
  if cs.all (fun c => df.cols.contains c) then .ok (select df cs)
  else .error "KeyError: column selection"

-- ## Cellwise numeric operations (NaN-propagating, as numpy does)

/-- Cellwise subtraction; null on non-numeric input. -/
def valSub (x y : Val) : Val :=
  match toRatNum x, toRatNum y with
  | some a, some b => .q (a - b)
  | _, _ => .null

/-- Cellwise division; null on non-numeric input.  Division by zero gives
an infinity in numpy; no modelled computation depends on that case, it is
mapped to null here. -/
def valDiv (x y : Val) : Val :=
  match toRatNum x, toRatNum y with
  | some a, some b => if b = 0 then .null else .q (a / b)
  | _, _ => .null

/-- The non-null count, pandas `Series.count()`. -/
def countNonNull (vs : List Val) : Nat :=
  (vs.filter (fun v => v != Val.null)).length

/-- The null count, pandas `Series.isnull().sum()`. -/
def countNull (vs : List Val) : Nat :=
  (vs.filter (fun v => v == Val.null)).length

/-- Distinct non-null count, pandas `Series.nunique()`. -/
def nuniqueNonNull (vs : List Val) : Nat :=
  ((vs.filter (fun v => v != Val.null)).dedup).length

/-- NaN-skipping minimum, null when no numeric value is present. -/
def valListMin (vs : List Val) : Val :=
  match vs.filterMap toRatNum with
  | [] => .null
  | x :: xs => .q (xs.foldl min x)

/-- NaN-skipping maximum, null when no numeric value is present. -/
def valListMax (vs : List Val) : Val :=
  match vs.filterMap toRatNum with
  | [] => .null
  | x :: xs => .q (xs.foldl max x)

/-- NaN-skipping sum (pandas sums an all-NaN series to 0.0). -/
def sumSkipNull (vs : List Val) : Val :=
  .q (vs.filterMap toRatNum).sum

/-- Python truthiness of a cell value (note that NaN is truthy). -/
def valTruthy : Val → Bool
  | .i n => n != 0
  | .q x => x != 0
  | .s str => str != ""
  | .null => true

-- ## Time-string helpers
--
-- Modelled from the spec: `gtfstk.helpers.timestr_to_seconds` is an
-- external library helper.  Forward: parse an HH:MM:SS string to integer
-- seconds, NaN on anything unparseable.  Inverse: format a number of
-- seconds as HH:MM:SS, NaN on non-numeric input.

/-- Split a character list on a separator (the char-level counterpart of
`str.split(':')`). -/
def splitOnChar (sep : Char) : List Char → List (List Char)
  | [] => [[]]
  | c :: rest =>
    if c = sep then [] :: splitOnChar sep rest
    else
      match splitOnChar sep rest with
      | [] => [[c]]
      | g :: gs => (c :: g) :: gs

/-- Decimal digit accumulation for a nonempty digit string. -/
def digitsVal : List Char → Nat → Option Nat
  | [], acc => some acc
  | c :: rest, acc =>
    if c.isDigit then digitsVal rest (acc * 10 + (c.toNat - 48)) else none

/-- Parse a nonempty all-digit character list as a natural number. -/
def strToNat : List Char → Option Nat
  | [] => none
  | l => digitsVal l 0

/-- Parse an HH:MM:SS time string cell to integer seconds, null
otherwise. -/
def timestrToSeconds : Val → Val
  | .s str =>
    match splitOnChar ':' str.toList with
    | [h, m, sec] =>
      match strToNat h, strToNat m, strToNat sec with
      | some a, some b, some c => .i (a * 3600 + b * 60 + c)
      | _, _, _ => .null
    | _ => .null
  | _ => .null

/-- Two-digit zero padding. -/
def pad2 (n : Nat) : String :=
  if n < 10 then "0" ++ toString n else toString n

/-- Format a numeric cell holding seconds as an HH:MM:SS string, null
otherwise. -/
def secondsToTimestr (v : Val) : Val :=
  match toRatNum v with
  | some r =>
    if r < 0 then .null
    else
      let n := r.floor.toNat
      .s (pad2 (n / 3600) ++ ":" ++ pad2 (n / 60 % 60) ++ ":" ++ pad2 (n % 60))
  | none => .null

-- ## Trip rollup builder (`compute_trip_stats_partridge`, lines 27-162)

/-- The tables of a parsed (and date-windowed) partridge feed. -/
structure Feed where
  trips : DF
  routes : DF
  agency : DF
  stop_times : DF
  stops : DF
deriving DecidableEq, Repr

/-- The per-trip aggregator `my_agg` (lines 119-150).  `group` is one
trip's rows, already sorted by stop_sequence; `dist` is the projected
stop-geometry distance query supplied by the external geometry provider
(`gtfstk.build_geometry_by_stop` and shapely `distance`). -/
def my_agg (dist : Val → Val → Rat) (group : List Row) : Row :=
  let first := group.headD []
  let last := group.getLastD []
  let startStop := cell first "stop_id"
  let endStop := cell last "stop_id"
  let startT := cell first "departure_time"
  let endT := cell last "departure_time"
  [("route_id", cell first "route_id"),
   ("route_short_name", cell first "route_short_name"),
   ("route_long_name", cell first "route_long_name"),
   ("agency_id", cell first "agency_id"),
   ("agency_name", cell first "agency_name"),
   ("route_type", cell first "route_type"),
   ("direction_id", cell first "direction_id"),
   ("shape_id", cell first "shape_id"),
   ("num_stops", .i group.length),
   ("start_time", startT),
   ("end_time", endT),
   ("start_stop_id", startStop),
   ("end_stop_id", endStop),
   ("start_stop_code", cell first "stop_code"),
   ("end_stop_code", cell last "stop_code"),
   ("start_stop_name", cell first "stop_name"),
   ("end_stop_name", cell last "stop_name"),
   ("start_stop_lat", cell first "stop_lat"),
   ("start_stop_lon", cell first "stop_lon"),
   ("end_stop_lat", cell last "stop_lat"),
   ("end_stop_lon", cell last "stop_lon"),
   ("start_zone", cell first "zone_name"),
   ("end_zone", cell last "zone_name"),
   ("num_zones", .i (nuniqueNonNull (group.map (fun r => cell r "zone_name")))),
   ("num_zones_missing", .i (countNull (group.map (fun r => cell r "zone_name")))),
   ("is_loop", .i (if dist startStop endStop < 400 then 1 else 0)),
   ("duration", valDiv (valSub endT startT) (.q 3600))]

/-- The trip rollup builder `compute_trip_stats_partridge`: join trips,
routes, agency (left), stop_times, stops and zones (left), sort by
(trip_id, stop_sequence), aggregate per trip with `my_agg`, attach the
per-trip max of shape_dist_traveled as distance, reset the index, derive
speed, and render start/end times as time strings. -/
def compute_trip_stats_partridge (dist : Val → Val → Rat) (feed : Feed)
    (zones : DF) : Except String DF := do
  let f0 := select feed.trips ["route_id", "trip_id", "direction_id", "shape_id"]
  let f1 := mergeInner f0 (select feed.routes
    ["route_id", "route_short_name", "route_long_name", "route_type", "agency_id"])
  let f2 := mergeLeftOn f1 (select feed.agency ["agency_id", "agency_name"])
    ["agency_id"]
  let f3 := mergeInner f2 feed.stop_times
  let f4 := mergeInner f3 (select feed.stops
    ["stop_id", "stop_name", "stop_lat", "stop_lon", "stop_code"])
  let f5 := mergeLeftCommon f4 zones
  let f := sortValues f5 ["trip_id", "stop_sequence"]
  let hI := groupbyApply "trip_id" (my_agg dist) f
  let hI2 := dfiSetCol hI "distance"
    ((groupsOf f "trip_id").map
      (fun g => valListMax (g.2.map (fun r => cell r "shape_dist_traveled"))))
  let h := resetIndex hI2
  let dcol ← getCol h "distance"
  let dur ← getCol h "duration"
  let h2 := setCol h "speed"
    (List.zipWith (fun a b => valDiv (valDiv a b) (.q 1000)) dcol dur)
  applymapColsE h2 ["start_time", "end_time"] secondsToTimestr

-- ## Active-interval sweep (`get_active_trips_df`, lines 165-187)

/-- Sort a list of rationals ascending. -/
def sortRats (l : List Rat) : List Rat :=
  sortBy (fun a b => decide (a ≤ b)) l

/-- The `groupby(level=0, sort=True).sum()` step: one entry per distinct
instant, instants ascending, values summed. -/
def groupbySum (events : List (Rat × Int)) : List (Rat × Int) :=
  (sortRats (events.map Prod.fst).dedup).map
    (fun k => (k, ((events.filter (fun e => decide (e.1 = k))).map Prod.snd).sum))

/-- The `cumsum()` step. -/
def cumsumSeries : List (Rat × Int) → Int → List (Rat × Int)
  | [], _ => []
  | (k, v) :: rest, acc => (k, acc + v) :: cumsumSeries rest (acc + v)

/-- The active-trips step function `get_active_trips_df`: +1 at each
start, -1 at each end, merge equal instants by summation, sort, cumulate.
The `.ffill()` of the source is the identity here because the summed
series contains no NaN; holding the last value forward shows up in
`active_at` below. -/
def get_active_trips_df (trip_times : List (Rat × Rat)) : List (Rat × Int) :=
  cumsumSeries
    (groupbySum (trip_times.map (fun p => (p.1, (1 : Int)))
      ++ trip_times.map (fun p => (p.2, (-1 : Int))))) 0

/-- Query the step function at an instant: the value of the last event at
or before it (none before the first event). -/
def active_at (series : List (Rat × Int)) (t : Rat) : Option Int :=
  ((series.filter (fun p => decide (p.1 ≤ t))).getLast?).map Prod.snd

-- ## Peak window selector (gtfstk `get_peak_indices`, external)
--
-- Modelled from the spec: first maximal-length contiguous run of indices
-- at the global-maximum count, returned as (first index, last index).

/-- Maximum of a list of ints (0 for the empty list, unreachable for
nonempty groups). -/
def intListMax : List Int → Int
  | [] => 0
  | x :: xs => xs.foldl max x

/-- Split an ascending index list into maximal consecutive runs. -/
def splitConsecRuns (l : List Nat) : List (List Nat) :=
  l.foldr
    (fun i acc =>
      match acc with
      | (j :: r) :: rest =>
        if i + 1 = j then (i :: j :: r) :: rest else [i] :: (j :: r) :: rest
      | _ => [[i]])
    []

/-- First longest run of positions at the maximum count. -/
def findPeakRun (counts : List Int) : Nat × Nat :=
  let m := intListMax counts
  let idxs := (List.range counts.length).filter
    (fun i => decide (counts.getD i 0 = m))
  let runs := splitConsecRuns idxs
  let best := runs.foldl
    (fun acc r => if acc.length < r.length then r else acc) (runs.headD [])
  (best.headD 0, best.getLastD 0)

/-- Read a rational list at an index as a cell value. -/
def valAtQ (l : List Rat) (i : Nat) : Val :=
  match l.get? i with
  | some x => .q x
  | none => .null

/-- Read an int list at an index as a cell value. -/
def valAtI (l : List Int) (i : Nat) : Val :=
  match l.get? i with
  | some x => .i x
  | none => .null

-- ## Headway analyzer and route rollup builder (lines 190-380)

/-- Qualifying start times of one direction: filter the group to the
direction, take the numeric start times inside the closed window
[hs, he], and sort them (lines 310-314). -/
def headwayStarts (hs he : Rat) (group : List Row) (dir : Int) : List Rat :=
  sortRats
    (((group.filter
        (fun r => toRatNum (cell r "direction_id") == some (dir : Rat))).filterMap
      (fun r => toRatNum (cell r "start_time"))).filter
      (fun t => decide (hs ≤ t) && decide (t ≤ he)))

/-- The `headways` array: consecutive differences of each direction's
sorted qualifying start times, concatenated over directions 0 and 1
(lines 309-315). -/
def routeHeadways (hs he : Rat) (group : List Row) : List Rat :=
  diffs (headwayStarts hs he group 0) ++ diffs (headwayStarts hs he group 1)

/-- The per-route aggregator `compute_route_stats` (lines 292-352),
applied to one route's trip-stat rows with start/end times already in
seconds. -/
def compute_route_stats (hs he : Rat) (group : List Row) : Row :=
  let first := group.headD []
  let starts := group.map (fun r => cell r "start_time")
  let ends := group.map (fun r => cell r "end_time")
  let headways := routeHeadways hs he group
  let pairs := group.filterMap (fun r =>
    match toRatNum (cell r "start_time"), toRatNum (cell r "end_time") with
    | some a, some b => some (a, b)
    | _, _ => none)
  let series := get_active_trips_df pairs
  let pk := findPeakRun (series.map Prod.snd)
  [("route_short_name", cell first "route_short_name"),
   ("route_long_name", cell first "route_long_name"),
   ("agency_id", cell first "agency_id"),
   ("agency_name", cell first "agency_name"),
   ("route_type", cell first "route_type"),
   ("num_trips", .i group.length),
   ("num_trip_starts", .i (countNonNull starts)),
   ("num_trip_ends",
    .i ((ends.filterMap toRatNum).filter (fun x => decide (x < 86400))).length),
   ("is_loop", .i (if group.any (fun r => valTruthy (cell r "is_loop")) then 1 else 0)),
   ("is_bidirectional",
    .i (if 1 < ((group.map (fun r => cell r "direction_id")).dedup).length
        then 1 else 0)),
   ("start_time", valListMin starts),
   ("end_time", valListMax ends),
   ("max_headway",
    if headways.isEmpty then .null else .q (ratListMax headways / 60)),
   ("min_headway",
    if headways.isEmpty then .null else .q (ratListMin headways / 60)),
   ("mean_headway",
    if headways.isEmpty then .null
    else .q (headways.sum / (headways.length : Rat) / 60)),
   ("peak_num_trips", valAtI (series.map Prod.snd) pk.1),
   ("peak_start_time", valAtQ (series.map Prod.fst) pk.1),
   ("peak_end_time", valAtQ (series.map Prod.fst) pk.2),
   ("service_distance", sumSkipNull (group.map (fun r => cell r "distance"))),
   ("service_duration", sumSkipNull (group.map (fun r => cell r "duration"))),
   ("start_stop_id", cell first "start_stop_id"),
   ("end_stop_id", cell first "end_stop_id"),
   ("start_stop_lat", cell first "start_stop_lat"),
   ("start_stop_lon", cell first "start_stop_lon"),
   ("end_stop_lat", cell first "end_stop_lat"),
   ("end_stop_lon", cell first "end_stop_lon"),
   ("num_stops", cell first "num_stops"),
   ("start_zone", cell first "start_zone"),
   ("end_zone", cell first "end_zone"),
   ("num_zones", cell first "num_zones"),
   ("num_zones_missing", cell first "num_zones_missing")]
where
  ratListMax : List Rat → Rat
    | [] => 0
    | x :: xs => xs.foldl max x
  ratListMin : List Rat → Rat
    | [] => 0
    | x :: xs => xs.foldl min x

/-- The column order of the returned route-stats frame (lines 368-378). -/
def routeStatsCols : List String :=
  ["route_id", "route_short_name", "agency_id", "agency_name",
   "route_long_name", "route_type", "num_trips", "num_trip_starts",
   "num_trip_ends", "is_loop", "is_bidirectional", "start_time",
   "end_time", "max_headway", "min_headway", "mean_headway",
   "peak_num_trips", "peak_start_time", "peak_end_time",
   "service_distance", "service_duration", "service_speed",
   "mean_trip_distance", "mean_trip_duration", "start_stop_id",
   "end_stop_id", "start_stop_lat", "start_stop_lon", "end_stop_lat",
   "end_stop_lon", "num_stops", "start_zone", "end_zone",
   "num_zones", "num_zones_missing"]

/-- The route rollup builder `compute_route_stats_base_partridge`:
convert start/end times to seconds, aggregate per route, then derive
service_speed, trip means, render time columns, rescale speed and select
the output columns. -/
def compute_route_stats_base_partridge
    (headway_start_time headway_end_time : String)
    (trip_stats_subset : DF) : Except String DF := do
  let f ← applymapColsE trip_stats_subset ["start_time", "end_time"]
    timestrToSeconds
  let hs := (toRatNum (timestrToSeconds (.s headway_start_time))).getD 0
  let he := (toRatNum (timestrToSeconds (.s headway_end_time))).getD 0
  let g0 := resetIndex (groupbyApply "route_id" (compute_route_stats hs he) f)
  let sd ← getCol g0 "service_distance"
  let sdur ← getCol g0 "service_duration"
  let g1 := setCol g0 "service_speed" (List.zipWith valDiv sd sdur)
  let nt ← getCol g1 "num_trips"
  let g2 := setCol g1 "mean_trip_distance" (List.zipWith valDiv sd nt)
  let g3 := setCol g2 "mean_trip_duration" (List.zipWith valDiv sdur nt)
  let g4 ← applymapColsE g3
    ["start_time", "end_time", "peak_start_time", "peak_end_time"]
    secondsToTimestr
  let sp ← getCol g4 "service_speed"
  let g5 := setCol g4 "service_speed" (sp.map (fun v => valDiv v (.q 1000)))
  selectE g5 routeStatsCols

-- ## Concrete inputs used by examples and witnesses

/-- A well-formed feed with the usual columns and no rows. -/
def emptyFeed : Feed :=
  { trips := ⟨["route_id", "service_id", "trip_id", "direction_id", "shape_id"], []⟩,
    routes := ⟨["route_id", "agency_id", "route_short_name", "route_long_name",
                "route_type"], []⟩,
    agency := ⟨["agency_id", "agency_name"], []⟩,
    stop_times := ⟨["trip_id", "arrival_time", "departure_time", "stop_id",
                    "stop_sequence", "shape_dist_traveled"], []⟩,
    stops := ⟨["stop_id", "stop_code", "stop_name", "stop_lat", "stop_lon"], []⟩ }

/-- An empty zones table. -/
def emptyZones : DF := ⟨["stop_code", "zone_name"], []⟩

/-- The trip-stats output schema (docstring, lines 36-70). -/
def tripStatsCols : List String :=
  ["trip_id", "route_id", "route_short_name", "route_long_name", "agency_id",
   "agency_name", "route_type", "direction_id", "shape_id", "num_stops",
   "start_time", "end_time", "start_stop_id", "end_stop_id",
   "start_stop_code", "end_stop_code", "start_stop_name", "end_stop_name",
   "start_stop_lat", "start_stop_lon", "end_stop_lat", "end_stop_lon",
   "start_zone", "end_zone", "num_zones", "num_zones_missing", "is_loop",
   "duration", "distance", "speed"]

/-- A trip-stats table with the full schema and no rows. -/
def emptyTripStats : DF := ⟨tripStatsCols, []⟩

/-- One trip-stat row of the headway example (times in seconds). -/
def hwRow (st en : Rat) : Row :=
  [("route_id", .s "r1"), ("route_short_name", .s "1"),
   ("route_long_name", .s "line"), ("agency_id", .i 5),
   ("agency_name", .s "ag"), ("route_type", .i 3),
   ("direction_id", .i 0), ("start_time", .q st), ("end_time", .q en),
   ("is_loop", .i 0), ("distance", .q 1000),
   ("duration", .q ((en - st) / 3600)),
   ("start_stop_id", .s "s1"), ("end_stop_id", .s "s2"),
   ("start_stop_lat", .q 32), ("start_stop_lon", .q 34),
   ("end_stop_lat", .q 32), ("end_stop_lon", .q 34),
   ("num_stops", .i 10), ("start_zone", .s "A"), ("end_zone", .s "B"),
   ("num_zones", .i 2), ("num_zones_missing", .i 0)]

/-- The headway example group: starts 25200, 26100, 27000, direction 0. -/
def hwGroup : List Row := [hwRow 25200 26000, hwRow 26100 27100, hwRow 27000 28000]

/-- A stop-sequence row for the is_loop witness. -/
def loopRow (seq : Int) (stop : String) : Row :=
  [("route_id", .s "r1"), ("trip_id", .s "t1"), ("direction_id", .i 0),
   ("shape_id", .s "sh"), ("route_short_name", .s "1"),
   ("route_long_name", .s "line"), ("route_type", .i 3),
   ("agency_id", .i 5), ("agency_name", .s "ag"),
   ("departure_time", .q (25200 + 60 * seq)), ("stop_sequence", .i seq),
   ("stop_id", .s stop), ("stop_name", .s stop), ("stop_lat", .q 32),
   ("stop_lon", .q 34), ("stop_code", .s stop), ("zone_name", .s "A"),
   ("shape_dist_traveled", .q (100 * seq))]

/-- A two-stop trip group for the is_loop witness. -/
def loopGroup : List Row := [loopRow 1 "sA", loopRow 2 "sB"]

/-- A distance query placing the example's stops exactly 400 m apart. -/
def dist400 : Val → Val → Rat := fun a b => if a = b then 0 else 400

/-- A distance query placing distinct stops 120 m apart. -/
def dist120 : Val → Val → Rat := fun a b => if a = b then 0 else 120

/-- Day number of 2024-01-01. -/
def dJan1 : Nat := daysFromCivil 2024 1 1

/-- Day number of 2024-02-29. -/
def dFeb29 : Nat := daysFromCivil 2024 2 29

/-- Day number of 2024-03-01. -/
def dMar1 : Nat := daysFromCivil 2024 3 1

/-- Day number of 2024-03-02. -/
def dMar2 : Nat := daysFromCivil 2024 3 2

/-- A concrete orchestrator environment over unit feeds with numeric
artifacts (computeRS is injective enough to observe recomputation). -/
def env0 : OrchEnv Unit Nat Nat :=
  { feedOf := fun _ _ => (), computeTS := fun _ => 7,
    computeRS := fun t => t + 1, tagTS := fun t _ => t, tagRS := fun r _ => r }

/-- The empty orchestrator state. -/
def s0 : OrchState Nat Nat :=
  { tripArts := [], routeArts := [], localFiles := [],
    tripComputes := 0, routeComputes := 0 }

-- ===================================================================
-- THEOREMS
-- ===================================================================

-- ## Shared helper lemmas

/-- Looking up the key just written by `insertArt` returns the value. -/
theorem lookup_insertArt {α : Type} (l : List (String × α)) (k : String) (v : α) :
    (insertArt l k v).lookup k = some v := by
  induction l with
  | nil => simp [insertArt, List.lookup]
  | cons p rest ih =>
    by_cases hk : p.1 = k
    · simp [insertArt, hk, List.lookup]
    · have hne : (k == p.1) = false := beq_eq_false_iff_ne.mpr (Ne.symm hk)
      simp [insertArt, hk, List.lookup, hne, ih]

/-- Overwriting a key twice with the same value is the same as once. -/
theorem insertArt_idem {α : Type} (l : List (String × α)) (k : String) (v : α) :
    insertArt (insertArt l k v) k v = insertArt l k v := by
  induction l with
  | nil => simp [insertArt]
  | cons p rest ih =>
    by_cases hk : p.1 = k
    · simp [insertArt, hk]
    · simp [insertArt, hk, ih]

/-- Behaviour of one work item when the trip-stats pickle exists. -/
theorem handle_gtfs_date_hit {F TS RS : Type} (env : OrchEnv F TS RS)
    (date_str file : String) (s : OrchState TS RS) (ts : TS)
    (h : s.tripArts.lookup date_str = some ts) :
    handle_gtfs_date env date_str file s =
      (false,
       { s with
         routeArts := insertArt s.routeArts date_str
           (env.tagRS (env.computeRS ts) date_str),
         routeComputes := s.routeComputes + 1 }) := by
  simp [handle_gtfs_date, h]

/-- Behaviour of one work item when no trip-stats pickle exists. -/
theorem handle_gtfs_date_miss {F TS RS : Type} (env : OrchEnv F TS RS)
    (date_str file : String) (s : OrchState TS RS)
    (h : s.tripArts.lookup date_str = none) :
    handle_gtfs_date env date_str file s =
      (!(s.localFiles.contains file),
       { tripArts := insertArt s.tripArts date_str
           (env.tagTS (env.computeTS (env.feedOf file date_str)) date_str),
         routeArts := insertArt s.routeArts date_str
           (env.tagRS (env.computeRS
             (env.tagTS (env.computeTS (env.feedOf file date_str)) date_str))
             date_str),
         localFiles := if s.localFiles.contains file then s.localFiles
                       else file :: s.localFiles,
         tripComputes := s.tripComputes + 1,
         routeComputes := s.routeComputes + 1 }) := by
  simp [handle_gtfs_date, h]

-- ## Claim C1

/-- C1 counterexample: with the trip-level artifact for 2020-01-01
already persisted by a first run, re-running `handle_gtfs_date` is not
free of recomputation — it invokes the route rollup builder again (the
route computation counter increases), contradicting "performs no
recomputation". -/
theorem handle_gtfs_date_rerun_recomputes_route :
    (handle_gtfs_date env0 "2020-01-01" "2020-01-01.zip"
        ((handle_gtfs_date env0 "2020-01-01" "2020-01-01.zip" s0).2)).2.routeComputes
      = (handle_gtfs_date env0 "2020-01-01" "2020-01-01.zip" s0).2.routeComputes
        + 1 := by
  decide

/-- C1 (amended): for every environment and state, once a first run has
persisted the trip-level artifact for a date, re-running the per-date
handler downloads nothing, does not invoke the trip rollup builder
(its reuse of the persisted TripStat is visible in the unchanged trip
computation counter), and leaves both persisted artifacts and the local
folder unchanged; the route rollup builder, however, is invoked once
more on the reused TripStat, recomputing an identical route artifact. -/
theorem handle_gtfs_date_rerun_idempotent {F TS RS : Type}
    (env : OrchEnv F TS RS) (date_str file : String) (s : OrchState TS RS)
    (h : s.tripArts.lookup date_str = none) :
    (handle_gtfs_date env date_str file
        ((handle_gtfs_date env date_str file s).2)).1 = false ∧
    (handle_gtfs_date env date_str file
        ((handle_gtfs_date env date_str file s).2)).2.tripArts
      = ((handle_gtfs_date env date_str file s).2).tripArts ∧
    (handle_gtfs_date env date_str file
        ((handle_gtfs_date env date_str file s).2)).2.routeArts
      = ((handle_gtfs_date env date_str file s).2).routeArts ∧
    (handle_gtfs_date env date_str file
        ((handle_gtfs_date env date_str file s).2)).2.localFiles
      = ((handle_gtfs_date env date_str file s).2).localFiles ∧
    (handle_gtfs_date env date_str file
        ((handle_gtfs_date env date_str file s).2)).2.tripComputes
      = ((handle_gtfs_date env date_str file s).2).tripComputes ∧
    (handle_gtfs_date env date_str file
        ((handle_gtfs_date env date_str file s).2)).2.routeComputes
      = ((handle_gtfs_date env date_str file s).2).routeComputes + 1 := by
  rw [handle_gtfs_date_miss env date_str file s h]
  rw [handle_gtfs_date_hit env date_str file _ _ (lookup_insertArt _ _ _)]
  simp [insertArt_idem]

/-- C1 witness: the amended idempotence theorem applied to the concrete
environment and the empty state. -/
theorem handle_gtfs_date_rerun_idempotent_witness :
    (([] : List (String × Nat)).lookup "2020-01-01" = none) ∧
    (handle_gtfs_date env0 "2020-01-01" "2020-01-01.zip"
        ((handle_gtfs_date env0 "2020-01-01" "2020-01-01.zip" s0).2)).1 = false :=
  ⟨by decide,
   (handle_gtfs_date_rerun_idempotent env0 "2020-01-01" "2020-01-01.zip" s0
     (by decide)).1⟩

-- ## Claim C2

/-- C2: on empty input both builders raise instead of returning an empty
frame.  The trip rollup builder on a feed with no rows fails with a
KeyError for the missing `duration` column (the empty `groupby.apply`
never creates the aggregate columns), and the route rollup builder on a
trip-stats table with no rows fails with a KeyError for
`service_distance` — contradicting the requirement (and the route
builder's own docstring) that empty input yield empty output and never
an exception. -/
theorem empty_input_raises :
    compute_trip_stats_partridge (fun _ _ => 0) emptyFeed emptyZones
      = .error "KeyError: duration" ∧
    compute_route_stats_base_partridge "07:00:00" "19:00:00" emptyTripStats
      = .error "KeyError: service_distance" := by
  constructor <;> rfl

-- ## Claim C4

/-- C4: when the gap between consecutive snapshots exceeds the maximum
(2024-01-01 followed by 2024-03-02, a 61-day gap), the plan caps the
first snapshot's coverage at 59 days past its date and raises no error —
but the uncovered date 2024-03-01 is not left out of the plan: the NaT
fill value is formatted as the string `'NaT'`, so the date is appended
under a bogus `'NaT.zip'` key (modelled by the `none` key), which
downstream is treated as a file name.  This contradicts the documented
behaviour of leaving such dates unassigned, matching the source's own
`BUG` comment. -/
theorem forward_fill_gap_nat_key :
    (get_forward_fill_dict [dJan1, dMar2] 0).lookup (some dJan1)
      = some ((List.range 60).map (dJan1 + ·)) ∧
    (get_forward_fill_dict [dJan1, dMar2] 0).lookup none = some [dMar1] ∧
    (get_forward_fill_dict [dJan1, dMar2] 0).lookup (some dMar2)
      = some [dMar2] := by
  refine ⟨by decide, by decide, by decide⟩

-- ## Claim C8

/-- C8: for every trip group and every externally supplied projected
stop-distance query, the aggregated is_loop field is 1 exactly when the
distance between the trip's first and last stop is strictly below 400
meters, is 0 exactly otherwise, and in particular is 0 at a distance of
exactly 400 meters. -/
theorem my_agg_is_loop (dist : Val → Val → Rat) (group : List Row) :
    ((my_agg dist group).lookup "is_loop" = some (.i 1)
      ↔ dist (cell (group.headD []) "stop_id")
          (cell (group.getLastD []) "stop_id") < 400) ∧
    ((my_agg dist group).lookup "is_loop" = some (.i 0)
      ↔ ¬ dist (cell (group.headD []) "stop_id")
          (cell (group.getLastD []) "stop_id") < 400) ∧
    (dist (cell (group.headD []) "stop_id")
        (cell (group.getLastD []) "stop_id") = 400 →
      (my_agg dist group).lookup "is_loop" = some (.i 0)) := by
  set D := dist (cell (group.headD []) "stop_id")
    (cell (group.getLastD []) "stop_id") with hD
  have h : (my_agg dist group).lookup "is_loop"
      = some (.i (if D < 400 then 1 else 0)) := rfl
  by_cases hd : D < 400
  · rw [if_pos hd] at h
    refine ⟨⟨fun _ => hd, fun _ => h⟩, ⟨?_, fun hn => absurd hd hn⟩, ?_⟩
    · intro he
      rw [h] at he
      simp at he
    · intro h400
      rw [h400] at hd
      exact absurd hd (by norm_num)
  · rw [if_neg hd] at h
    refine ⟨⟨?_, fun hlt => absurd hlt hd⟩, ⟨fun _ => hd, fun _ => h⟩, fun _ => h⟩
    intro he
    rw [h] at he
    simp at he

/-- C8 witness: the theorem applied to a concrete two-stop trip whose
stops are exactly 400 meters apart. -/
theorem my_agg_is_loop_witness :
    dist400 (cell (loopGroup.headD []) "stop_id")
        (cell (loopGroup.getLastD []) "stop_id") = 400 ∧
    (my_agg dist400 loopGroup).lookup "is_loop" = some (.i 0) :=
  ⟨by decide, (my_agg_is_loop dist400 loopGroup).2.2 (by decide)⟩

-- ## Claim C9

/-- C9: with the delete-after-processing option enabled, a snapshot that
WAS downloaded during the run (while handling its first scheduled date)
is nevertheless kept after all its scheduled dates are processed,
because the loop in `handle_gtfs_file` overwrites the `downloaded` flag
with each date's result and the second date finds the file locally.
This contradicts the documented behaviour of deleting the downloaded
snapshot once all its scheduled dates are processed. -/
theorem handle_gtfs_file_keeps_downloaded_zip :
    (handle_gtfs_date env0 "2020-01-01" "2020-01-01.zip" s0).1 = true ∧
    (handle_gtfs_file env0 "2020-01-01.zip" ["2020-01-01", "2020-01-02"]
        true s0).localFiles = ["2020-01-01.zip"] := by
  refine ⟨by decide, by decide⟩

-- ## Claim C10

/-- C10: a call of a retry-decorated operation whose keyword arguments
lack `report` raises a KeyError before the wrapped operation is attempted
even once (the event trace is empty), for every default-parameter list
declared on the wrapped function itself — the wrapper reads
`kwargs['report']` directly, so such a default is never consulted. -/
theorem retry_wrapped_missing_report {V E A : Type}
    (funcDefaults : List (String × V)) (op : Nat → AttemptResult E A)
    (delays : List Nat) (kwargs : List (String × V))
    (h : kwargs.lookup "report" = none) :
    retry_wrapped funcDefaults op delays kwargs = ([], .keyErr "report") := by
  simp [retry_wrapped, h]

/-- C10 witness: the theorem applied to a concrete call that passes only
a `bucket` keyword, against a wrapped function declaring `report` with a
default. -/
theorem retry_wrapped_missing_report_witness :
    ([(("bucket" : String), (3 : Nat))]).lookup "report" = none ∧
    retry_wrapped [(("report" : String), (0 : Nat))]
        (fun _ => AttemptResult.ok (E := Nat) (A := Nat) 5) [0, 1]
        [("bucket", 3)]
      = ([], .keyErr "report") :=
  ⟨by decide,
   retry_wrapped_missing_report [("report", 0)]
     (fun _ => AttemptResult.ok 5) [0, 1] [("bucket", 3)] (by decide)⟩

-- ## Claim C3 helper lemmas

/-- Shift the start of an indexed range map by one. -/
theorem range_map_shift {α : Type} (f : Nat → α) (k n : Nat) :
    (List.range (n + 1)).map (fun i => f (k + i))
      = f k :: (List.range n).map (fun i => f (k + 1 + i)) := by
  rw [List.range_succ_eq_map, List.map_cons, List.map_map]
  have h1 : k + 0 = k := Nat.add_zero k
  rw [h1]
  congr 1
  refine List.map_congr_left ?_
  intro a _
  simp only [Function.comp_apply]
  congr 1
  omega

/-- The tail of a cons carries the last element when nonempty. -/
theorem getLast?_cons_ne {α : Type} (a : α) (l : List α) (h : l ≠ []) :
    (a :: l).getLast? = l.getLast? := by
  cases l with
  | nil => exact absurd rfl h
  | cons b t => simp [List.getLast?_cons_cons]

/-- The all-failure trace is never empty. -/
theorem allFailEvents_ne_nil {E : Type} (e : Nat → E) (ds : List Nat)
    (k : Nat) (probs : List E) : allFailEvents e ds k probs ≠ [] := by
  cases ds <;> simp [allFailEvents]

/-- Closed form of the retry loop when every attempt fails retryably:
the trace is the all-failure trace and the last failure is re-raised. -/
theorem retryLoop_allFail {E A : Type} (op : Nat → AttemptResult E A)
    (e : Nat → E) (hfail : ∀ k, op k = .retryable (e k)) :
    ∀ (ds : List Nat) (k : Nat) (probs : List E),
      retryLoop op (ds.map some ++ [none]) k probs
        = (allFailEvents e ds k probs, .raised (e (k + ds.length))) := by
  intro ds
  induction ds with
  | nil =>
    intro k probs
    simp [retryLoop, hfail k, allFailEvents]
  | cons d rest ih =>
    intro k probs
    simp only [List.map_cons, List.cons_append, retryLoop, hfail k,
      allFailEvents, List.length_cons, List.append_eq]
    rw [ih (k + 1) (probs ++ [e k])]
    have harith : k + 1 + rest.length = k + (rest.length + 1) := by omega
    simp [harith]

/-- Number of attempts in the all-failure trace. -/
theorem allFailEvents_attempts {E : Type} (e : Nat → E) :
    ∀ (ds : List Nat) (k : Nat) (probs : List E),
      ((allFailEvents e ds k probs).filter isAttempt).length = ds.length + 1 := by
  intro ds
  induction ds with
  | nil => intro k probs; simp [allFailEvents, isAttempt]
  | cons d rest ih =>
    intro k probs
    simp [allFailEvents, isAttempt, ih (k + 1) (probs ++ [e k])]

/-- Sleeps of the all-failure trace: exactly the delay sequence in
order. -/
theorem allFailEvents_sleeps {E : Type} (e : Nat → E) :
    ∀ (ds : List Nat) (k : Nat) (probs : List E),
      (allFailEvents e ds k probs).filterMap sleepOf = ds := by
  intro ds
  induction ds with
  | nil => intro k probs; simp [allFailEvents, sleepOf]
  | cons d rest ih =>
    intro k probs
    simp [allFailEvents, sleepOf, ih (k + 1) (probs ++ [e k])]

/-- Per-failure reports of the all-failure trace: each recorded failure
paired with its delay, in order. -/
theorem allFailEvents_retryReports {E : Type} (e : Nat → E) :
    ∀ (ds : List Nat) (k : Nat) (probs : List E),
      (allFailEvents e ds k probs).filterMap retryReportOf
        = ((List.range ds.length).map (fun i => e (k + i))).zip ds := by
  intro ds
  induction ds with
  | nil => intro k probs; simp [allFailEvents, retryReportOf]
  | cons d rest ih =>
    intro k probs
    simp only [allFailEvents, List.filterMap_cons, retryReportOf,
      ih (k + 1) (probs ++ [e k]), List.length_cons]
    rw [range_map_shift e k rest.length]
    rfl

/-- Terminal reports of the all-failure trace: exactly one, carrying
every failure in order. -/
theorem allFailEvents_final {E : Type} (e : Nat → E) :
    ∀ (ds : List Nat) (k : Nat) (probs : List E),
      (allFailEvents e ds k probs).filterMap finalReportOf
        = [probs ++ (List.range (ds.length + 1)).map (fun i => e (k + i))] := by
  intro ds
  induction ds with
  | nil =>
    intro k probs
    simp [allFailEvents, finalReportOf, List.range_succ]
  | cons d rest ih =>
    intro k probs
    simp only [allFailEvents, List.filterMap_cons, finalReportOf,
      ih (k + 1) (probs ++ [e k]), List.length_cons]
    rw [range_map_shift e k (rest.length + 1)]
    simp

/-- The all-failure trace ends with the terminal report. -/
theorem allFailEvents_getLast {E : Type} (e : Nat → E) :
    ∀ (ds : List Nat) (k : Nat) (probs : List E),
      (allFailEvents e ds k probs).getLast?
        = some (.reportFinal
            (probs ++ (List.range (ds.length + 1)).map (fun i => e (k + i)))) := by
  intro ds
  induction ds with
  | nil =>
    intro k probs
    simp [allFailEvents, List.range_succ]
  | cons d rest ih =>
    intro k probs
    show (allFailEvents e (d :: rest) k probs).getLast? = _
    rw [allFailEvents]
    rw [getLast?_cons_ne _ _ (by simp [allFailEvents_ne_nil])]
    rw [getLast?_cons_ne _ _ (by simp [allFailEvents_ne_nil])]
    rw [getLast?_cons_ne _ _ (allFailEvents_ne_nil e rest (k + 1) (probs ++ [e k]))]
    rw [ih (k + 1) (probs ++ [e k])]
    simp only [List.length_cons]
    rw [range_map_shift e k (rest.length + 1)]
    simp

-- ## Claim C3

/-- C3: for every operation, delay sequence and retryable-failure
predicate (each attempt's failure matching the predicate), the retry
executor attempts the operation once per delay plus one final attempt
after the sequence is exhausted; it records and reports each retryable
failure with its delay and sleeps exactly the delay sequence in order;
the terminal report happens exactly once, as the last event, carrying
every prior failure in order; and the final failure is propagated, never
swallowed. -/
theorem retry_exhausts_reports_and_raises {E A : Type}
    (op : Nat → AttemptResult E A) (delays : List Nat) (e : Nat → E)
    (hfail : ∀ k, op k = .retryable (e k)) :
    (retryRun op delays).2 = .raised (e delays.length) ∧
    ((retryRun op delays).1.filter isAttempt).length = delays.length + 1 ∧
    (retryRun op delays).1.filterMap sleepOf = delays ∧
    (retryRun op delays).1.filterMap retryReportOf
      = ((List.range delays.length).map e).zip delays ∧
    (retryRun op delays).1.filterMap finalReportOf
      = [(List.range (delays.length + 1)).map e] ∧
    (retryRun op delays).1.getLast?
      = some (.reportFinal ((List.range (delays.length + 1)).map e)) := by
  have hmap : ∀ n : Nat, (List.range n).map (fun i => e (0 + i))
      = (List.range n).map e := by
    intro n
    refine List.map_congr_left ?_
    intro a _
    rw [Nat.zero_add]
  have h := retryLoop_allFail op e hfail delays 0 []
  unfold retryRun
  rw [h]
  refine ⟨by simp, ?_, ?_, ?_, ?_, ?_⟩
  · exact allFailEvents_attempts e delays 0 []
  · exact allFailEvents_sleeps e delays 0 []
  · rw [allFailEvents_retryReports e delays 0 [], hmap]
  · rw [allFailEvents_final e delays 0 [], hmap]
    simp
  · rw [allFailEvents_getLast e delays 0 [], hmap]
    simp

/-- C3 witness: the theorem applied to an operation whose k-th attempt
fails retryably with error k, with the delay sequence [0, 1]: three
attempts happen and the third failure is raised. -/
theorem retry_exhausts_witness :
    (∀ k, (fun n => AttemptResult.retryable (E := Nat) (A := Unit) n) k
        = .retryable k) ∧
    (retryRun (fun n => AttemptResult.retryable (E := Nat) (A := Unit) n)
        [0, 1]).2 = .raised 2 ∧
    (retryRun (fun n => AttemptResult.retryable (E := Nat) (A := Unit) n)
        [0, 1]).1.filterMap finalReportOf = [[0, 1, 2]] :=
  ⟨fun k => rfl,
   by
    have h := retry_exhausts_reports_and_raises
      (fun n => AttemptResult.retryable (E := Nat) (A := Unit) n) [0, 1]
      (fun n => n) (fun k => rfl)
    exact h.1,
   by
    have h := retry_exhausts_reports_and_raises
      (fun n => AttemptResult.retryable (E := Nat) (A := Unit) n) [0, 1]
      (fun n => n) (fun k => rfl)
    have hf := h.2.2.2.2.1
    simpa using hf⟩

-- ## Sorting and grouping lemmas (shared by the sweep and the headway
-- analyzer)

/-- Membership through an insertion step. -/
theorem mem_insertBy {α : Type} (le : α → α → Bool) (x : α) (l : List α)
    (a : α) : a ∈ insertBy le x l ↔ a ∈ x :: l := by
  induction l with
  | nil => simp [insertBy]
  | cons y ys ih =>
    simp only [insertBy]
    split
    · simp
    · simp only [List.mem_cons] at ih ⊢
      rw [ih]
      tauto

/-- Membership through sorting. -/
theorem mem_sortBy {α : Type} (le : α → α → Bool) (l : List α) (a : α) :
    a ∈ sortBy le l ↔ a ∈ l := by
  induction l with
  | nil => simp [sortBy]
  | cons x xs ih =>
    simp only [sortBy]
    rw [mem_insertBy]
    simp [ih]

/-- Insertion produces a permutation of consing. -/
theorem insertBy_perm {α : Type} (le : α → α → Bool) (x : α) (l : List α) :
    (insertBy le x l).Perm (x :: l) := by
  induction l with
  | nil => simp [insertBy]
  | cons y ys ih =>
    simp only [insertBy]
    split
    · exact List.Perm.refl _
    · exact (ih.cons y).trans (List.Perm.swap x y ys)

/-- Sorting produces a permutation of the input. -/
theorem sortBy_perm {α : Type} (le : α → α → Bool) (l : List α) :
    (sortBy le l).Perm l := by
  induction l with
  | nil => exact List.Perm.refl _
  | cons x xs ih => exact (insertBy_perm le x (sortBy le xs)).trans (ih.cons x)

/-- Inserting into a sorted list keeps it sorted, for a total transitive
order. -/
theorem pairwise_insertBy {α : Type} (le : α → α → Bool)
    (htot : ∀ a b, le a b = true ∨ le b a = true)
    (htrans : ∀ a b c, le a b = true → le b c = true → le a c = true)
    (x : α) (l : List α) (h : l.Pairwise (fun a b => le a b = true)) :
    (insertBy le x l).Pairwise (fun a b => le a b = true) := by
  induction l with
  | nil => simp [insertBy]
  | cons y ys ih =>
    rw [List.pairwise_cons] at h
    simp only [insertBy]
    split
    · rename_i hxy
      rw [List.pairwise_cons]
      refine ⟨?_, List.pairwise_cons.mpr h⟩
      intro b hb
      rcases List.mem_cons.mp hb with hby | hbys
      · exact hby ▸ hxy
      · exact htrans x y b hxy (h.1 b hbys)
    · rename_i hxy
      have hyx : le y x = true := by
        rcases htot x y with hc | hc
        · exact absurd hc hxy
        · exact hc
      rw [List.pairwise_cons]
      refine ⟨?_, ih h.2⟩
      intro b hb
      rcases List.mem_cons.mp (by rw [← mem_insertBy le x ys]; exact hb) with hbx | hbys
      · exact hbx ▸ hyx
      · exact h.1 b hbys

/-- An insertion sort with a total transitive order sorts. -/
theorem pairwise_sortBy {α : Type} (le : α → α → Bool)
    (htot : ∀ a b, le a b = true ∨ le b a = true)
    (htrans : ∀ a b c, le a b = true → le b c = true → le a c = true)
    (l : List α) : (sortBy le l).Pairwise (fun a b => le a b = true) := by
  induction l with
  | nil => simp [sortBy]
  | cons x xs ih => exact pairwise_insertBy le htot htrans x (sortBy le xs) ih

/-- The rational order passed to `sortRats` is total. -/
theorem ratLe_total : ∀ a b : Rat, decide (a ≤ b) = true ∨ decide (b ≤ a) = true := by
  intro a b
  by_cases h : a ≤ b
  · left; simpa
  · right; simpa using le_of_not_le h

/-- The rational order passed to `sortRats` is transitive. -/
theorem ratLe_trans : ∀ a b c : Rat, decide (a ≤ b) = true →
    decide (b ≤ c) = true → decide (a ≤ c) = true := by
  intro a b c hab hbc
  simp only [decide_eq_true_eq] at hab hbc ⊢
  exact le_trans hab hbc

/-- A sorted list of rationals is pairwise monotone. -/
theorem sortRats_pairwise (l : List Rat) :
    (sortRats l).Pairwise (fun a b => a ≤ b) := by
  refine (pairwise_sortBy _ ratLe_total ratLe_trans l).imp ?_
  intro a b hab
  simpa using hab

/-- Membership in a sorted rational list. -/
theorem mem_sortRats (l : List Rat) (a : Rat) : a ∈ sortRats l ↔ a ∈ l :=
  mem_sortBy _ l a

/-- The instants of the summed series: pairwise ascending. -/
theorem groupbySum_pairwise (events : List (Rat × Int)) :
    (groupbySum events).Pairwise (fun p q => p.1 ≤ q.1) := by
  unfold groupbySum
  rw [List.pairwise_map]
  exact sortRats_pairwise ((events.map Prod.fst).dedup)

/-- The instants of the summed series are exactly the event instants. -/
theorem mem_groupbySum_keys (events : List (Rat × Int)) (x : Rat) :
    x ∈ (groupbySum events).map Prod.fst ↔ x ∈ events.map Prod.fst := by
  unfold groupbySum
  rw [List.map_map]
  constructor
  · intro hx
    rcases List.mem_map.mp hx with ⟨k, hk, he⟩
    have hxk : x = k := by simpa using he.symm
    subst hxk
    exact List.mem_dedup.mp ((mem_sortRats _ _).mp hk)
  · intro hx
    refine List.mem_map.mpr ⟨x, ?_, rfl⟩
    exact (mem_sortRats _ _).mpr (List.mem_dedup.mpr hx)

/-- Cumulative sums preserve the instants. -/
theorem cumsum_map_fst : ∀ (l : List (Rat × Int)) (acc : Int),
    (cumsumSeries l acc).map Prod.fst = l.map Prod.fst := by
  intro l
  induction l with
  | nil => intro acc; rfl
  | cons p rest ih =>
    intro acc
    obtain ⟨k, v⟩ := p
    simp [cumsumSeries, ih]

/-- The filtered cumulative series is empty exactly when the filtered
input is. -/
theorem cumsum_filter_nil_iff (t : Rat) (l : List (Rat × Int)) (acc : Int) :
    ((cumsumSeries l acc).filter (fun p => decide (p.1 ≤ t)) = [])
      ↔ (l.filter (fun p => decide (p.1 ≤ t)) = []) := by
  rw [List.filter_eq_nil_iff, List.filter_eq_nil_iff]
  constructor
  · intro h b hb
    have hfst : b.1 ∈ (cumsumSeries l acc).map Prod.fst := by
      rw [cumsum_map_fst]
      exact List.mem_map_of_mem Prod.fst hb
    rcases List.mem_map.mp hfst with ⟨q, hq, hqe⟩
    intro hbt
    exact h q hq (by rw [hqe]; exact hbt)
  · intro h b hb
    have hfst : b.1 ∈ l.map Prod.fst := by
      rw [← cumsum_map_fst l acc]
      exact List.mem_map_of_mem Prod.fst hb
    rcases List.mem_map.mp hfst with ⟨q, hq, hqe⟩
    intro hbt
    exact h q hq (by rw [hqe]; exact hbt)

/-- The last entry of the cumulative series at or before an instant is
the accumulator plus the sum of the input values at or before it. -/
theorem cumsum_filter_getLast (t : Rat) :
    ∀ (l : List (Rat × Int)) (acc : Int),
      l.Pairwise (fun p q => p.1 ≤ q.1) →
      (((cumsumSeries l acc).filter (fun p => decide (p.1 ≤ t))).getLast?).map
          Prod.snd
        = if l.filter (fun p => decide (p.1 ≤ t)) = [] then none
          else some (acc
            + ((l.filter (fun p => decide (p.1 ≤ t))).map Prod.snd).sum) := by
  intro l
  induction l with
  | nil => intro acc _; simp [cumsumSeries]
  | cons p rest ih =>
    intro acc hp
    obtain ⟨k, v⟩ := p
    rw [List.pairwise_cons] at hp
    by_cases hk : k ≤ t
    · have hkd : decide (k ≤ t) = true := by simpa using hk
      rw [show cumsumSeries ((k, v) :: rest) acc
            = (k, acc + v) :: cumsumSeries rest (acc + v) from rfl]
      rw [List.filter_cons_of_pos (by simpa using hk),
          List.filter_cons_of_pos (by simpa using hk)]
      rcases hrest : (cumsumSeries rest (acc + v)).filter
          (fun p => decide (p.1 ≤ t)) with _ | ⟨q, qs⟩
      · have hrl : rest.filter (fun p => decide (p.1 ≤ t)) = [] :=
          (cumsum_filter_nil_iff t rest (acc + v)).mp hrest
        simp [hrest, hrl]
      · have hne : (cumsumSeries rest (acc + v)).filter
            (fun p => decide (p.1 ≤ t)) ≠ [] := by rw [hrest]; simp
        have hrl : rest.filter (fun p => decide (p.1 ≤ t)) ≠ [] := by
          intro hc
          exact hne ((cumsum_filter_nil_iff t rest (acc + v)).mpr hc)
        rw [getLast?_cons_ne _ _ (by rw [hrest]; simp)]
        rw [hrest] at hne ⊢
        rw [← hrest]
        rw [ih (acc + v) hp.2]
        rw [if_neg hrl, if_neg (by simp [hrl])]
        simp [Int.add_assoc]
    · have hall : rest.filter (fun p => decide (p.1 ≤ t)) = [] := by
        rw [List.filter_eq_nil_iff]
        intro b hb hbt
        have hkb : k ≤ b.1 := hp.1 b hb
        simp only [decide_eq_true_eq] at hbt
        exact hk (le_trans hkb hbt)
      have hallc : (cumsumSeries rest (acc + v)).filter
          (fun p => decide (p.1 ≤ t)) = [] :=
        (cumsum_filter_nil_iff t rest (acc + v)).mpr hall
      rw [show cumsumSeries ((k, v) :: rest) acc
            = (k, acc + v) :: cumsumSeries rest (acc + v) from rfl]
      rw [List.filter_cons_of_neg (by simpa using hk),
          List.filter_cons_of_neg (by simpa using hk)]
      rw [hallc, hall]
      simp

/-- Splitting a value sum by a predicate on the entries. -/
theorem sum_split (p : (Rat × Int) → Bool) (events : List (Rat × Int)) :
    ((events.filter p).map Prod.snd).sum
      + ((events.filter (fun e => !p e)).map Prod.snd).sum
      = (events.map Prod.snd).sum := by
  induction events with
  | nil => simp
  | cons e es ih =>
    by_cases hp : p e
    · simp only [List.filter_cons, hp, if_true, Bool.not_true, Bool.false_eq_true,
        if_false, List.map_cons, List.sum_cons]
      omega
    · simp only [List.filter_cons, hp, Bool.false_eq_true, if_false, Bool.not_false,
        if_true, List.map_cons, List.sum_cons]
      omega

/-- Summing the per-key group sums over a complete duplicate-free key
list gives the total value sum. -/
theorem sum_over_groups :
    ∀ (keys : List Rat) (events : List (Rat × Int)),
      keys.Nodup → (∀ e ∈ events, e.1 ∈ keys) →
      (keys.map (fun k =>
        ((events.filter (fun e => decide (e.1 = k))).map Prod.snd).sum)).sum
        = (events.map Prod.snd).sum := by
  intro keys
  induction keys with
  | nil =>
    intro events _ hcov
    have hnil : events = [] := by
      cases events with
      | nil => rfl
      | cons e es => exact absurd (hcov e (by simp)) (by simp)
    subst hnil
    simp
  | cons k ks ih =>
    intro events hnd hcov
    rw [List.nodup_cons] at hnd
    have hsum := sum_split (fun e => decide (e.1 = k)) events
    have hks : ∀ k2 ∈ ks,
        events.filter (fun e => decide (e.1 = k2))
          = (events.filter (fun e => !decide (e.1 = k))).filter
              (fun e => decide (e.1 = k2)) := by
      intro k2 hk2
      have hkk2 : k ≠ k2 := fun hc => hnd.1 (hc ▸ hk2)
      rw [List.filter_filter]
      refine (List.filter_congr ?_).symm
      intro e he
      by_cases h2 : e.1 = k2
      · have h1 : e.1 ≠ k := fun hc => hkk2 (hc.symm.trans h2)
        simp only [h2, decide_eq_true_eq]
        simp [Ne.symm hkk2]
      · simp [h2]
    have hmapc : ks.map (fun k2 =>
          ((events.filter (fun e => decide (e.1 = k2))).map Prod.snd).sum)
        = ks.map (fun k2 =>
          (((events.filter (fun e => !decide (e.1 = k))).filter
              (fun e => decide (e.1 = k2))).map Prod.snd).sum) := by
      refine List.map_congr_left ?_
      intro k2 hk2
      rw [hks k2 hk2]
    have hcov2 : ∀ e ∈ events.filter (fun e => !decide (e.1 = k)),
        e.1 ∈ ks := by
      intro e he
      rcases List.mem_filter.mp he with ⟨he1, he2⟩
      have hek : e.1 ≠ k := by simpa using he2
      rcases List.mem_cons.mp (hcov e he1) with hc | hc
      · exact absurd hc hek
      · exact hc
    rw [List.map_cons, List.sum_cons, hmapc,
      ih (events.filter (fun e => !decide (e.1 = k))) hnd.2 hcov2]
    omega

/-- Filtering a key-tagged map by a key predicate commutes with the
map. -/
theorem filter_map_pairs {β : Type} (keys : List Rat) (g : Rat → β)
    (p : Rat → Bool) :
    ((keys.map (fun k => (k, g k))).filter (fun q => p q.1))
      = (keys.filter p).map (fun k => (k, g k)) := by
  induction keys with
  | nil => rfl
  | cons k ks ih =>
    by_cases hp : p k
    · simp [List.filter_cons, hp, ih]
    · simp [List.filter_cons, hp, ih]

/-- The values of the summed series at or before an instant sum to the
sum of the raw event values at or before it. -/
theorem groupbySum_filter_sum (t : Rat) (events : List (Rat × Int)) :
    (((groupbySum events).filter (fun p => decide (p.1 ≤ t))).map Prod.snd).sum
      = ((events.filter (fun e => decide (e.1 ≤ t))).map Prod.snd).sum := by
  unfold groupbySum
  rw [filter_map_pairs _ _ (fun k => decide (k ≤ t)), List.map_map]
  have hgrp : ((sortRats (events.map Prod.fst).dedup).filter
        (fun k => decide (k ≤ t))).map
      (Prod.snd ∘ fun k =>
        (k, ((events.filter (fun e => decide (e.1 = k))).map Prod.snd).sum))
      = ((sortRats (events.map Prod.fst).dedup).filter
        (fun k => decide (k ≤ t))).map
      (fun k =>
        (((events.filter (fun e => decide (e.1 ≤ t))).filter
          (fun e => decide (e.1 = k))).map Prod.snd).sum) := by
    refine List.map_congr_left ?_
    intro k hk
    have hkt : k ≤ t := by simpa using (List.mem_filter.mp hk).2
    simp only [Function.comp_apply]
    congr 1
    congr 1
    rw [List.filter_filter]
    refine List.filter_congr ?_
    intro e he
    by_cases h2 : e.1 = k
    · have het : e.1 ≤ t := h2 ▸ hkt
      simp [h2, het, hkt]
    · simp [h2]
  rw [hgrp]
  refine sum_over_groups _ _ ?_ ?_
  · refine List.Nodup.filter _ ?_
    exact ((sortBy_perm _ _).nodup_iff).mpr (List.nodup_dedup _)
  · intro e he
    rcases List.mem_filter.mp he with ⟨he1, he2⟩
    refine List.mem_filter.mpr ⟨?_, he2⟩
    rw [mem_sortRats]
    exact List.mem_dedup.mpr (List.mem_map_of_mem Prod.fst he1)

/-- Filtered value sum of a constant-tagged event list. -/
theorem map_const_filter_sum (tt : List (Rat × Rat)) (t : Rat)
    (f : Rat × Rat → Rat) (c : Int) :
    (((tt.map (fun p => (f p, c))).filter
        (fun e => decide (e.1 ≤ t))).map Prod.snd).sum
      = ((tt.filter (fun p => decide (f p ≤ t))).length : Int) * c := by
  induction tt with
  | nil => simp
  | cons p ps ih =>
    by_cases hp : f p ≤ t
    · rw [List.map_cons, List.filter_cons, List.filter_cons]
      rw [if_pos (show decide ((f p, c).1 ≤ t) = true by simpa using hp)]
      rw [if_pos (show decide (f p ≤ t) = true by simpa using hp)]
      rw [List.map_cons, List.sum_cons, ih, List.length_cons]
      push_cast
      ring
    · rw [List.map_cons, List.filter_cons, List.filter_cons]
      rw [if_neg (show ¬ decide ((f p, c).1 ≤ t) = true by simpa using hp)]
      rw [if_neg (show ¬ decide (f p ≤ t) = true by simpa using hp)]
      exact ih

/-- The raw event values at or before an instant sum to the number of
starts minus the number of ends at or before it. -/
theorem events_filter_sum (tt : List (Rat × Rat)) (t : Rat) :
    (((tt.map (fun p => (p.1, (1 : Int)))
        ++ tt.map (fun p => (p.2, (-1 : Int)))).filter
        (fun e => decide (e.1 ≤ t))).map Prod.snd).sum
      = ((tt.filter (fun p => decide (p.1 ≤ t))).length : Int)
        - ((tt.filter (fun p => decide (p.2 ≤ t))).length : Int) := by
  rw [List.filter_append, List.map_append, List.sum_append]
  have h1 := map_const_filter_sum tt t (fun p => p.1) 1
  have h2 := map_const_filter_sum tt t (fun p => p.2) (-1)
  simp only at h1 h2
  rw [h1, h2]
  ring

/-- The summed series has an entry at or before any instant at or after
some event. -/
theorem groupbySum_filter_ne_nil (t : Rat) (events : List (Rat × Int))
    (x : Rat) (hx : x ∈ events.map Prod.fst) (hxt : x ≤ t) :
    (groupbySum events).filter (fun p => decide (p.1 ≤ t)) ≠ [] := by
  have hx2 : x ∈ (groupbySum events).map Prod.fst :=
    (mem_groupbySum_keys events x).mpr hx
  rcases List.mem_map.mp hx2 with ⟨q, hq, hqe⟩
  intro hc
  rw [List.filter_eq_nil_iff] at hc
  refine hc q hq ?_
  rw [hqe]
  simpa using hxt

-- ## Claim C6

/-- C6: the active-interval sweep emits +1 at each start and -1 at each
end, merges same-instant events by summation, sorts ascending and
cumulates — so on [(0,10),(5,15)] it yields counts 1 at 0, 2 at 5, 1 at
10 and 0 at 15 — and holding the last value forward, the queried value
at any instant at or after the first event equals the number of starts
at or before it minus the number of ends at or before it. -/
theorem get_active_trips_df_spec :
    get_active_trips_df [(0, 10), (5, 15)] = [(0, 1), (5, 2), (10, 1), (15, 0)] ∧
    ∀ (tt : List (Rat × Rat)) (t : Rat),
      (∃ p ∈ tt, p.1 ≤ t ∨ p.2 ≤ t) →
      active_at (get_active_trips_df tt) t
        = some (((tt.filter (fun p => decide (p.1 ≤ t))).length : Int)
            - ((tt.filter (fun p => decide (p.2 ≤ t))).length : Int)) := by
  constructor
  · decide
  · intro tt t hex
    have hne : (groupbySum (tt.map (fun p => (p.1, (1 : Int)))
        ++ tt.map (fun p => (p.2, (-1 : Int))))).filter
        (fun p => decide (p.1 ≤ t)) ≠ [] := by
      rcases hex with ⟨p, hp, hc⟩
      rcases hc with h1 | h2
      · refine groupbySum_filter_ne_nil t _ p.1 ?_ h1
        rw [List.map_append, List.map_map, List.map_map]
        exact List.mem_append.mpr (Or.inl (List.mem_map.mpr ⟨p, hp, rfl⟩))
      · refine groupbySum_filter_ne_nil t _ p.2 ?_ h2
        rw [List.map_append, List.map_map, List.map_map]
        exact List.mem_append.mpr (Or.inr (List.mem_map.mpr ⟨p, hp, rfl⟩))
    have hmain := cumsum_filter_getLast t
      (groupbySum (tt.map (fun p => (p.1, (1 : Int)))
        ++ tt.map (fun p => (p.2, (-1 : Int))))) 0
      (groupbySum_pairwise _)
    show (((cumsumSeries (groupbySum (tt.map (fun p => (p.1, (1 : Int)))
        ++ tt.map (fun p => (p.2, (-1 : Int))))) 0).filter
        (fun p => decide (p.1 ≤ t))).getLast?).map Prod.snd = _
    rw [hmain, if_neg hne, Int.zero_add, groupbySum_filter_sum,
      events_filter_sum]

/-- C6 witness: the characterisation applied to the example intervals at
the non-event instant 7, where two trips are active. -/
theorem get_active_trips_df_spec_witness :
    (∃ p ∈ ([((0 : Rat), (10 : Rat)), (5, 15)] : List (Rat × Rat)),
      p.1 ≤ 7 ∨ p.2 ≤ 7) ∧
    active_at (get_active_trips_df [(0, 10), (5, 15)]) 7 = some 2 :=
  ⟨⟨(0, 10), by decide, Or.inl (by norm_num)⟩,
   by
    have h := (get_active_trips_df_spec).2 [(0, 10), (5, 15)] 7
      ⟨(0, 10), by decide, Or.inl (by norm_num)⟩
    rw [h]
    decide⟩

-- ## Claim C7 helper lemma

/-- numpy diff of a list with fewer than two entries is empty. -/
theorem diffs_eq_nil_of_short (l : List Rat) (h : l.length ≤ 1) :
    diffs l = [] := by
  cases l with
  | nil => rfl
  | cons x xs =>
    cases xs with
    | nil => rfl
    | cons y ys => exact absurd h (by simp)

-- ## Claim C7

unseal Rat.sub Rat.mul Rat.inv Rat.add in
/-- C7: the headway analyzer keeps only start times inside the closed
window [hs, he] (and keeps every qualifying one), sorts them, takes
consecutive differences per direction and concatenates the two
directions; a direction with at most one qualifying start contributes no
gaps; min, max and mean headway are null (undefined) exactly when no gap
exists across both directions; otherwise they are the minimum, maximum
and mean gap in minutes — and on starts 25200, 26100, 27000 within the
default 07:00:00-19:00:00 window all three equal 15 minutes. -/
theorem compute_route_stats_headways (hs he : Rat) (group : List Row) :
    (∀ d : Int, ∀ x ∈ headwayStarts hs he group d, hs ≤ x ∧ x ≤ he) ∧
    (∀ d : Int, (headwayStarts hs he group d).Pairwise (fun a b => a ≤ b)) ∧
    (∀ r ∈ group, toRatNum (cell r "direction_id") = some ((0 : Int) : Rat) →
      ∀ x, toRatNum (cell r "start_time") = some x → hs ≤ x → x ≤ he →
        x ∈ headwayStarts hs he group 0) ∧
    (routeHeadways hs he group
      = diffs (headwayStarts hs he group 0) ++ diffs (headwayStarts hs he group 1)) ∧
    ((headwayStarts hs he group 0).length ≤ 1 →
      (headwayStarts hs he group 1).length ≤ 1 →
      routeHeadways hs he group = []) ∧
    ((compute_route_stats hs he group).lookup "max_headway" = some Val.null
      ↔ routeHeadways hs he group = []) ∧
    ((compute_route_stats hs he group).lookup "min_headway" = some Val.null
      ↔ routeHeadways hs he group = []) ∧
    ((compute_route_stats hs he group).lookup "mean_headway" = some Val.null
      ↔ routeHeadways hs he group = []) ∧
    (compute_route_stats 25200 68400 hwGroup).lookup "max_headway"
      = some (.q 15) ∧
    (compute_route_stats 25200 68400 hwGroup).lookup "min_headway"
      = some (.q 15) ∧
    (compute_route_stats 25200 68400 hwGroup).lookup "mean_headway"
      = some (.q 15) ∧
    (toRatNum (timestrToSeconds (.s "07:00:00"))).getD 0 = 25200 ∧
    (toRatNum (timestrToSeconds (.s "19:00:00"))).getD 0 = 68400 := by
  have hwin : ∀ d : Int, ∀ x ∈ headwayStarts hs he group d, hs ≤ x ∧ x ≤ he := by
    intro d x hx
    rw [headwayStarts, mem_sortRats] at hx
    rcases List.mem_filter.mp hx with ⟨_, hcond⟩
    simp only [Bool.and_eq_true, decide_eq_true_eq] at hcond
    exact hcond
  have hmax : (compute_route_stats hs he group).lookup "max_headway"
      = some (if (routeHeadways hs he group).isEmpty then Val.null
          else .q (compute_route_stats.ratListMax (routeHeadways hs he group) / 60)) := rfl
  have hmin : (compute_route_stats hs he group).lookup "min_headway"
      = some (if (routeHeadways hs he group).isEmpty then Val.null
          else .q (compute_route_stats.ratListMin (routeHeadways hs he group) / 60)) := rfl
  have hmean : (compute_route_stats hs he group).lookup "mean_headway"
      = some (if (routeHeadways hs he group).isEmpty then Val.null
          else .q ((routeHeadways hs he group).sum
            / ((routeHeadways hs he group).length : Rat) / 60)) := rfl
  have hnulliff : ∀ (v : Rat),
      (some (if (routeHeadways hs he group).isEmpty then Val.null else Val.q v)
        = some Val.null) ↔ routeHeadways hs he group = [] := by
    intro v
    by_cases hE : (routeHeadways hs he group).isEmpty
    · simp [hE, List.isEmpty_iff.mp hE]
    · have : routeHeadways hs he group ≠ [] := by
        intro hc
        exact hE (by simp [hc])
      simp [hE, this]
  refine ⟨hwin, ?_, ?_, rfl, ?_, ?_, ?_, ?_, by decide, by decide, by decide,
    by decide, by decide⟩
  · intro d
    exact sortRats_pairwise _
  · intro r hr hdir x hx hhs hhe
    rw [headwayStarts, mem_sortRats]
    refine List.mem_filter.mpr ⟨?_, ?_⟩
    · refine List.mem_filterMap.mpr ⟨r, ?_, hx⟩
      refine List.mem_filter.mpr ⟨hr, ?_⟩
      rw [hdir]
      simp
    · simp [hhs, hhe]
  · intro h0 h1
    rw [routeHeadways, diffs_eq_nil_of_short _ h0, diffs_eq_nil_of_short _ h1]
    rfl
  · rw [hmax]; exact hnulliff _
  · rw [hmin]; exact hnulliff _
  · rw [hmean]; exact hnulliff _

/-- C7 witness: a direction with a single qualifying start time
contributes no gaps, so the group with one trip has no headways. -/
theorem compute_route_stats_headways_witness :
    (headwayStarts 25200 68400 [hwRow 25200 26000] 0).length ≤ 1 ∧
    (headwayStarts 25200 68400 [hwRow 25200 26000] 1).length ≤ 1 ∧
    routeHeadways 25200 68400 [hwRow 25200 26000] = [] :=
  ⟨by decide, by decide,
   (compute_route_stats_headways 25200 68400 [hwRow 25200 26000]).2.2.2.2.1
     (by decide) (by decide)⟩

-- ## Claim C5 helper lemmas

/-- Nat-specific head split of a shifted range. -/
theorem range_add_shift (a m : Nat) :
    (List.range (m + 1)).map (a + ·) = a :: (List.range m).map ((a + 1) + ·) := by
  have h := range_map_shift (fun x => x) a m
  simpa using h

/-- The scan reproduces the walked days as first components. -/
theorem ffillScan_fst (snaps : List Nat) :
    ∀ (days : List Nat) (st : Option (Nat × Nat)),
      (ffillScan snaps days st).map Prod.fst = days := by
  intro days
  induction days with
  | nil => intro st; rfl
  | cons d rest ih =>
    intro st
    by_cases hd : d ∈ snaps
    · simp [ffillScan, hd, ih]
    · cases st with
      | none => simp [ffillScan, hd, ih]
      | some p =>
        obtain ⟨s, g⟩ := p
        by_cases hg : g < 59
        · simp [ffillScan, hd, hg, ih]
        · simp [ffillScan, hd, hg, ih]

/-- Occurrences of a value in a singleton list. -/
theorem count_single (d v : Nat) :
    ([v] : List Nat).count d = if d = v then 1 else 0 := by
  by_cases hdv : d = v
  · subst hdv
    simp
  · rw [if_neg hdv]
    exact List.count_eq_zero_of_not_mem (by simpa using hdv)

/-- Appending one value to the dictionary adds one occurrence of it to
the total count. -/
theorem dictAppend_countsum {κ : Type} [DecidableEq κ]
    (m : List (κ × List Nat)) (k : κ) (v d : Nat) :
    ((dictAppend m k v).map (fun p => p.2.count d)).sum
      = (m.map (fun p => p.2.count d)).sum + (if d = v then 1 else 0) := by
  induction m with
  | nil => simp [dictAppend, count_single]
  | cons p rest ih =>
    obtain ⟨k0, vs⟩ := p
    by_cases hk : k0 = k
    · simp only [dictAppend, hk, if_true, List.map_cons, List.sum_cons,
        List.count_append, count_single]
      omega
    · simp only [dictAppend, hk, if_false, List.map_cons, List.sum_cons, ih]
      omega

/-- Folding the scan pairs into the dictionary: total occurrence counts
accumulate one per walked pair. -/
theorem foldl_dict_countsum {κ : Type} [DecidableEq κ] (d : Nat) :
    ∀ (ps : List (Nat × κ)) (m : List (κ × List Nat)),
      ((ps.foldl (fun m2 p => dictAppend m2 p.2 p.1) m).map
        (fun p => p.2.count d)).sum
        = (m.map (fun p => p.2.count d)).sum + (ps.map Prod.fst).count d := by
  intro ps
  induction ps with
  | nil => intro m; simp
  | cons p rest ih =>
    intro m
    rw [List.foldl_cons, ih, dictAppend_countsum]
    rw [List.map_cons, List.count_cons]
    by_cases hdp : d = p.1 <;> simp [hdp] <;> omega

/-- `dictAppend` preserves a property of (value, key) pairs. -/
theorem dictAppend_mem_prop {κ : Type} [DecidableEq κ]
    (Q : Nat → κ → Prop) :
    ∀ (m : List (κ × List Nat)) (k : κ) (v : Nat),
      (∀ k2 l, (k2, l) ∈ m → ∀ x ∈ l, Q x k2) → Q v k →
      ∀ k2 l, (k2, l) ∈ dictAppend m k v → ∀ x ∈ l, Q x k2 := by
  intro m
  induction m with
  | nil =>
    intro k v hm hv k2 l hmem x hx
    simp only [dictAppend, List.mem_singleton, Prod.mk.injEq] at hmem
    obtain ⟨hk2, hl⟩ := hmem
    subst hk2
    subst hl
    rcases List.mem_singleton.mp hx with rfl
    exact hv
  | cons p rest ih =>
    intro k v hm hv k2 l hmem x hx
    obtain ⟨k0, vs⟩ := p
    by_cases hk : k0 = k
    · simp only [dictAppend, hk, if_true] at hmem
      rcases List.mem_cons.mp hmem with hhead | htail
      · injection hhead with hk2 hl
        rw [hk2]
        rw [hl] at hx
        rcases List.mem_append.mp hx with hx1 | hx2
        · exact hk ▸ hm k0 vs (by simp) x hx1
        · rcases List.mem_singleton.mp hx2 with rfl
          exact hv
      · exact hm k2 l (List.mem_cons_of_mem _ htail) x hx
    · simp only [dictAppend, hk, if_false] at hmem
      rcases List.mem_cons.mp hmem with hhead | htail
      · injection hhead with hk2 hl
        rw [hk2]
        rw [hl] at hx
        exact hm k0 vs (by simp) x hx
      · exact ih k v (fun k3 l3 h3 => hm k3 l3 (List.mem_cons_of_mem _ h3)) hv
          k2 l htail x hx

/-- Folding pairs that satisfy a property into the dictionary keeps every
stored (value, key) pair satisfying it. -/
theorem foldl_dict_mem_prop {κ : Type} [DecidableEq κ] (Q : Nat → κ → Prop) :
    ∀ (ps : List (Nat × κ)) (m : List (κ × List Nat)),
      (∀ k2 l, (k2, l) ∈ m → ∀ x ∈ l, Q x k2) →
      (∀ p ∈ ps, Q p.1 p.2) →
      ∀ k2 l, (k2, l) ∈ ps.foldl (fun m2 p => dictAppend m2 p.2 p.1) m →
        ∀ x ∈ l, Q x k2 := by
  intro ps
  induction ps with
  | nil => intro m hm _ k2 l hmem x hx; exact hm k2 l hmem x hx
  | cons p rest ih =>
    intro m hm hps k2 l hmem x hx
    rw [List.foldl_cons] at hmem
    refine ih (dictAppend m p.2 p.1)
      (dictAppend_mem_prop Q m p.2 p.1 hm (hps p (by simp))) ?_ k2 l hmem x hx
    intro q hq
    exact hps q (List.mem_cons_of_mem _ hq)

/-- Characterisation of the filled value along a run of consecutive days
that starts right after the last seen snapshot plus the counted gap: a
filled day's snapshot is the latest one at or before it, within 59
days. -/
theorem ffillScan_char (snaps : List Nat) :
    ∀ (n a s g : Nat), s ∈ snaps → g + s + 1 = a →
      (∀ y ∈ snaps, ¬ (s < y ∧ y < a)) →
      ∀ d v, (d, some v) ∈ ffillScan snaps ((List.range n).map (a + ·))
          (some (s, g)) →
        v ∈ snaps ∧ v ≤ d ∧ d - v ≤ 59 ∧ ∀ y ∈ snaps, y ≤ d → y ≤ v := by
  intro n
  induction n with
  | zero =>
    intro a s g _ _ _ d v h
    simp [ffillScan] at h
  | succ m ih =>
    intro a s g hs hg hnb d v hmem
    rw [range_add_shift] at hmem
    by_cases ha : a ∈ snaps
    · have hstep : ffillScan snaps (a :: (List.range m).map ((a + 1) + ·))
          (some (s, g)) = (a, some a) ::
            ffillScan snaps ((List.range m).map ((a + 1) + ·)) (some (a, 0)) := by
        simp [ffillScan, ha]
      rw [hstep] at hmem
      rcases List.mem_cons.mp hmem with hhead | htail
      · injection hhead with hd hv
        injection hv with hv2
        rw [hd, hv2]
        exact ⟨ha, le_refl _, by omega, fun y _ hy => hy⟩
      · exact ih (a + 1) a 0 ha (by omega) (fun y hy => by omega) d v htail
    · by_cases hgl : g < 59
      · have hstep : ffillScan snaps (a :: (List.range m).map ((a + 1) + ·))
            (some (s, g)) = (a, some s) ::
              ffillScan snaps ((List.range m).map ((a + 1) + ·))
                (some (s, g + 1)) := by
          simp [ffillScan, ha, hgl]
        rw [hstep] at hmem
        rcases List.mem_cons.mp hmem with hhead | htail
        · injection hhead with hd hv
          injection hv with hv2
          rw [hd, hv2]
          refine ⟨hs, by omega, by omega, ?_⟩
          intro y hy hya
          by_contra hvy
          have h2 : y ≠ a := fun hc => ha (hc ▸ hy)
          exact hnb y hy ⟨by omega, by omega⟩
        · refine ih (a + 1) s (g + 1) hs (by omega) ?_ d v htail
          intro y hy hcon
          have h2 : y ≠ a := fun hc => ha (hc ▸ hy)
          exact hnb y hy ⟨hcon.1, by omega⟩
      · have hstep : ffillScan snaps (a :: (List.range m).map ((a + 1) + ·))
            (some (s, g)) = (a, none) ::
              ffillScan snaps ((List.range m).map ((a + 1) + ·))
                (some (s, g + 1)) := by
          simp [ffillScan, ha, hgl]
        rw [hstep] at hmem
        rcases List.mem_cons.mp hmem with hhead | htail
        · injection hhead with hd hv
          exact absurd hv (by simp)
        · refine ih (a + 1) s (g + 1) hs (by omega) ?_ d v htail
          intro y hy hcon
          have h2 : y ≠ a := fun hc => ha (hc ▸ hy)
          exact hnb y hy ⟨hcon.1, by omega⟩

/-- Characterisation of every filled pair of the complete expected-day
scan. -/
theorem ffillScan_expected_char (snaps : List Nat) (future : Nat)
    (hne : snaps ≠ []) :
    ∀ d v, (d, some v) ∈ ffillScan snaps (expectedDays snaps future) none →
      v ∈ snaps ∧ v ≤ d ∧ d - v ≤ 59 ∧ ∀ y ∈ snaps, y ≤ d → y ≤ v := by
  intro d v hmem
  rcases hmin : snaps.min? with _ | lo
  · exact absurd (List.min?_eq_none_iff.mp hmin) hne
  rcases hmax : snaps.max? with _ | hi
  · exact absurd (List.max?_eq_none_iff.mp hmax) hne
  have hlomem : lo ∈ snaps := List.min?_mem (fun a b => min_choice a b) hmin
  have hhimem : hi ∈ snaps := List.max?_mem (fun a b => max_choice a b) hmax
  have hlohi : lo ≤ hi :=
    (List.le_min?_iff (fun a b c => le_min_iff) hmin).mp (le_refl lo) hi hhimem
  have hexp : expectedDays snaps future
      = (List.range (hi + future + 1 - lo)).map (lo + ·) := by
    simp [expectedDays, hmin, hmax]
  rw [hexp] at hmem
  obtain ⟨M, hM⟩ : ∃ M, hi + future + 1 - lo = M + 1 := ⟨hi + future - lo, by omega⟩
  rw [hM, range_add_shift] at hmem
  rw [show ffillScan snaps (lo :: (List.range M).map ((lo + 1) + ·)) none
      = (lo, some lo) ::
        ffillScan snaps ((List.range M).map ((lo + 1) + ·)) (some (lo, 0))
      from by simp [ffillScan, hlomem]] at hmem
  rcases List.mem_cons.mp hmem with hhead | htail
  · obtain ⟨hd, hv⟩ := Prod.mk.injEq .. ▸ hhead
    obtain rfl := Option.some.injEq .. ▸ hv
    subst hd
    exact ⟨hlomem, le_refl _, by omega, fun y _ hy => hy⟩
  · exact ffillScan_char snaps M (lo + 1) lo 0 hlomem (by omega)
      (fun y hy => by omega) d v htail

-- ## Claim C5

/-- C5: in forward-fill mode with a nonempty snapshot set, every
expected calendar day is placed in exactly one entry of the plan (total
occurrence count one, so no date appears in two snapshots' lists), and
every day stored under a snapshot key is covered by that snapshot: the
snapshot is at or before the day, within the 59-day maximum gap, and is
the latest snapshot at or before the day.  In particular with snapshots
only at 2024-01-01 and 2024-03-01, 2024-01-01 covers exactly the 60 days
through 2024-02-29 and 2024-03-01 covers from itself onward. -/
theorem get_forward_fill_dict_spec (snaps : List Nat) (future : Nat)
    (hne : snaps ≠ []) :
    (∀ d, d ∈ expectedDays snaps future →
      ((get_forward_fill_dict snaps future).map (fun p => p.2.count d)).sum
        = 1) ∧
    (∀ k l, (some k, l) ∈ get_forward_fill_dict snaps future → ∀ d ∈ l,
      k ∈ snaps ∧ k ≤ d ∧ d - k ≤ 59 ∧ ∀ y ∈ snaps, y ≤ d → y ≤ k) ∧
    get_forward_fill_dict [dJan1, dMar1] 0
      = [(some dJan1, (List.range 60).map (dJan1 + ·)),
         (some dMar1, [dMar1])] := by
  refine ⟨?_, ?_, by decide⟩
  · intro d hd
    rw [get_forward_fill_dict, foldl_dict_countsum, ffillScan_fst]
    have hnodup : (expectedDays snaps future).Nodup := by
      rw [expectedDays]
      rcases hmin : snaps.min? with _ | lo
      · simp
      rcases hmax : snaps.max? with _ | hi
      · simp
      exact (List.nodup_range _).map (fun x y hxy => by omega)
    simp only [List.map_nil, List.sum_nil, Nat.zero_add]
    exact List.count_eq_one_of_mem hnodup hd
  · intro k l hmem d hd
    refine ffillScan_expected_char snaps future hne d k ?_
    have hq := foldl_dict_mem_prop
      (fun x kopt => (x, kopt) ∈ ffillScan snaps (expectedDays snaps future) none)
      (ffillScan snaps (expectedDays snaps future) none) []
      (by intro k2 l2 h2; simp at h2)
      (by intro p _ ; simpa using (by assumption : p ∈ _))
      (some k) l hmem d hd
    exact hq

/-- C5 witness: the plan for snapshots 2024-01-01 and 2024-03-01 places
the day 30 days after 2024-01-01 in exactly one entry. -/
theorem get_forward_fill_dict_spec_witness :
    ([dJan1, dMar1] ≠ []) ∧
    ((get_forward_fill_dict [dJan1, dMar1] 0).map
      (fun p => p.2.count (dJan1 + 30))).sum = 1 :=
  ⟨by decide,
   (get_forward_fill_dict_spec [dJan1, dMar1] 0 (by decide)).1 (dJan1 + 30)
     (by decide)⟩
